import Mathlib

/-!
Shallow embedding of the retirement-portfolio simulator
(`app/services/strategy_engine.py`, `app/services/validation.py`,
`app/services/simulation_service.py`), with theorems checking the
specification's claims about it.

Python floats are modelled as `ℚ`; pandas timestamps as `Date`
(year, month, day, compared lexicographically); pandas Series as
association lists keyed by `Date`; Python dicts as association lists
with first-occurrence key order and in-place value update.
-/

/-- A calendar date, standing in for a pandas `Timestamp`. -/
structure Date where
  year : ℤ
  month : ℕ
  day : ℕ
deriving DecidableEq, Repr

/-- Chronological (lexicographic) strict order on dates, as pandas compares
`Timestamp`s. -/
def Date.ltb (a b : Date) : Bool :=
  if a.year ≠ b.year then decide (a.year < b.year)
  else if a.month ≠ b.month then decide (a.month < b.month)
  else decide (a.day < b.day)

/-- Model of `pd.Timestamp(year=y, month=1, day=1)`. -/
def jan1 (y : ℤ) : Date := ⟨y, 1, 1⟩

/-- Model of `pd.date_range(start=Timestamp(sy,1,1), end=Timestamp(ey,12,31), freq='MS')`:
every month-start date from January of `sy` through December of `ey`
(empty when `sy > ey`). -/
def simulationMonths (startYear endYear : ℤ) : List Date :=
  (List.range (12 * (endYear - startYear + 1).toNat)).map
    (fun i => ⟨startYear + (i / 12 : ℕ), i % 12 + 1, 1⟩)

/-- Association-list lookup by key (a pandas `Series.get` / dict `[]`). -/
def alookup {κ α : Type} [DecidableEq κ] (l : List (κ × α)) (k : κ) : Option α :=
  (l.find? (fun p => decide (p.1 = k))).map Prod.snd

/-- Helper for `Series.pct_change()`, continued past the first entry: each closing price
paired with its return against the previous price. -/
def pctChangeFrom (prev : ℚ) : List (Date × ℚ) → List (Date × Option ℚ)
  | [] => []
  | (d, p) :: rest => (d, some (p / prev - 1)) :: pctChangeFrom p rest

/-- Model of `Series.pct_change()`: the first entry has no previous price (NaN,
modelled `none`); every later entry carries `close[m] / close[m-1] - 1`. -/
def pctChange : List (Date × ℚ) → List (Date × Option ℚ)
  | [] => []
  | (d, p) :: rest => (d, none) :: pctChangeFrom p rest

/-- Model of `monthly_returns.get(month_start)` followed by the `pd.isna` guard:
a month absent from the series, or present with a NaN return, contributes
a return of exactly `0.0`. -/
def retAt (rets : List (Date × Option ℚ)) (d : Date) : ℚ :=
  match alookup rets d with
  | some (some r) => r
  | _ => 0

/-- One month's record appended to `simulation_results`. -/
structure Row where
  yearMonth : Date
  startingCorpus : ℚ
  monthlyReturn : ℚ
  monthlyDraw : ℚ
  corpusAfterGrowth : ℚ
  endingCorpus : ℚ
deriving DecidableEq, Repr

/-- A fund entry as the strategy engine reads it (post-validation, ticker
enriched): `fund['name']`, `fund['ticker']`, `fund['weight']`. -/
structure EFund where
  name : String
  ticker : String
  weight : ℚ
deriving DecidableEq, Repr

/-- The month loop of `SingleFundStrategy.simulate`: thread the running
corpus through the months, emitting one row each. -/
def sfLoop (rets : List (Date × Option ℚ)) (initialCorpus : ℚ) (startYear : ℤ)
    (annualDrawRate inflationRate : ℚ) : List Date → ℚ → List Row
  | [], _ => []
  | d :: rest, corpus =>
      let monthlyReturn := retAt rets d
      let inflationAdjustedAnnualDraw :=
        initialCorpus * annualDrawRate * (1 + inflationRate) ^ (d.year - startYear).toNat
      let monthlyDraw := inflationAdjustedAnnualDraw / 12
      let corpusAfterGrowth := corpus * (1 + monthlyReturn)
      let corpusAtEndOfMonth := corpusAfterGrowth - monthlyDraw
      { yearMonth := d, startingCorpus := corpus, monthlyReturn := monthlyReturn,
        monthlyDraw := monthlyDraw, corpusAfterGrowth := corpusAfterGrowth,
        endingCorpus := corpusAtEndOfMonth } ::
        sfLoop rets initialCorpus startYear annualDrawRate inflationRate rest corpusAtEndOfMonth

/-- Model of `SingleFundStrategy.simulate`: take the scenario's (single) fund, derive
its monthly returns by `pct_change`, and run the month loop from the
initial corpus. -/
def SingleFundStrategy.simulate (funds : List EFund)
    (allFetchedFundData : String → List (Date × ℚ)) (initialCorpus : ℚ)
    (startYear endYear : ℤ) (annualDrawRate inflationRate : ℚ) : List Row :=
  let fund := funds.headD ⟨"", "", 0⟩
  let monthlyReturns := pctChange (allFetchedFundData fund.ticker)
  sfLoop monthlyReturns initialCorpus startYear annualDrawRate inflationRate
    (simulationMonths startYear endYear) initialCorpus

/-! ## Python dicts as association lists

A Python dict keeps first-insertion key order; assigning to an existing key
updates its value in place, assigning to a fresh key appends it. -/

/-- Assignment `d[k] = v` on a Python dict. -/
def dictSet {α : Type} (d : List (String × α)) (k : String) (v : α) : List (String × α) :=
  if (alookup d k).isSome then
    d.map (fun p => if p.1 = k then (k, v) else p)
  else
    d ++ [(k, v)]

/-- A dict built by inserting the given key/value pairs in order
(a dict comprehension). -/
def buildDict {α : Type} (l : List (String × α)) : List (String × α) :=
  l.foldl (fun d p => dictSet d p.1 p.2) []

/-- Read of `d[k]` on a Python dict, with a default for the (never exercised)
missing-key case. -/
def dgetD {α : Type} (d : List (String × α)) (k : String) (dflt : α) : α :=
  (alookup d k).getD dflt

/-- Model of `list(d.keys())`. -/
def dictKeys {α : Type} (d : List (String × α)) : List String := d.map Prod.fst

/-- Model of `sum(d.values())`. -/
def dictValuesSum (d : List (String × ℚ)) : ℚ := (d.map Prod.snd).sum

/-! ## RebalancingStrategy -/

/-- Model of `fund_monthly_returns`: dict from fund name to the fund's
`pct_change()` series. -/
def rebReturnsDict (funds : List EFund) (allFetchedFundData : String → List (Date × ℚ)) :
    List (String × List (Date × Option ℚ)) :=
  buildDict (funds.map (fun f => (f.name, pctChange (allFetchedFundData f.ticker))))

/-- The inner `for fund in funds` growth loop of one month: grow each fund's
holding by its own return while accumulating `corpus_after_growth` and
`weighted_return_numerator`. -/
def rebGrow (retsDict : List (String × List (Date × Option ℚ))) (d : Date) :
    List EFund → List (String × ℚ) × ℚ × ℚ → List (String × ℚ) × ℚ × ℚ
  | [], st => st
  | f :: fs, (holdings, corpusAfterGrowth, weightedReturnNumerator) =>
      let monthlyReturn := retAt (dgetD retsDict f.name []) d
      let startingHolding := dgetD holdings f.name 0
      let endingHolding := startingHolding * (1 + monthlyReturn)
      rebGrow retsDict d fs
        (dictSet holdings f.name endingHolding,
         corpusAfterGrowth + endingHolding,
         weightedReturnNumerator + startingHolding * monthlyReturn)

/-- The December `for fund in funds` loop: reset each fund's holding to
`corpus_after_withdraw * fund['weight']`. -/
def rebRedistribute (corpusAfterWithdraw : ℚ) :
    List EFund → List (String × ℚ) → List (String × ℚ)
  | [], holdings => holdings
  | f :: fs, holdings =>
      rebRedistribute corpusAfterWithdraw fs
        (dictSet holdings f.name (corpusAfterWithdraw * f.weight))

/-- The body of `RebalancingStrategy.simulate`'s month loop: one month's row
together with the holdings dict passed to the next month. -/
def rebOneMonth (retsDict : List (String × List (Date × Option ℚ))) (funds : List EFund)
    (baseAnnualDraw inflationRate : ℚ) (startYear : ℤ) (d : Date)
    (holdings : List (String × ℚ)) : Row × List (String × ℚ) :=
  let corpusAtStartOfMonth := dictValuesSum holdings
  let grown := rebGrow retsDict d funds (holdings, 0, 0)
  let holdings1 := grown.1
  let corpusAfterGrowth := grown.2.1
  let weightedReturnNumerator := grown.2.2
  let monthlyReturnPortfolio :=
    if corpusAtStartOfMonth = 0 then 0 else weightedReturnNumerator / corpusAtStartOfMonth
  let annualDraw := baseAnnualDraw * (1 + inflationRate) ^ (d.year - startYear).toNat
  let monthlyDrawReported := if d.month = 12 then annualDraw / 12 else 0
  let newHoldings :=
    if d.month = 12 then rebRedistribute (corpusAfterGrowth - annualDraw) funds holdings1
    else holdings1
  ({ yearMonth := d, startingCorpus := corpusAtStartOfMonth,
     monthlyReturn := monthlyReturnPortfolio, monthlyDraw := monthlyDrawReported,
     corpusAfterGrowth := corpusAfterGrowth,
     endingCorpus := dictValuesSum newHoldings }, newHoldings)

/-- The month loop of `RebalancingStrategy.simulate`. -/
def rebLoop (retsDict : List (String × List (Date × Option ℚ))) (funds : List EFund)
    (baseAnnualDraw inflationRate : ℚ) (startYear : ℤ) :
    List Date → List (String × ℚ) → List Row
  | [], _ => []
  | d :: rest, holdings =>
      let step := rebOneMonth retsDict funds baseAnnualDraw inflationRate startYear d holdings
      step.1 :: rebLoop retsDict funds baseAnnualDraw inflationRate startYear rest step.2

/-- Model of `RebalancingStrategy.simulate`: allocate the initial corpus by target
weights, then run the month loop. -/
def RebalancingStrategy.simulate (funds : List EFund)
    (allFetchedFundData : String → List (Date × ℚ)) (initialCorpus : ℚ)
    (startYear endYear : ℤ) (annualDrawRate inflationRate : ℚ) : List Row :=
  let retsDict := rebReturnsDict funds allFetchedFundData
  let holdings := buildDict (funds.map (fun f => (f.name, initialCorpus * f.weight)))
  let baseAnnualDraw := initialCorpus * annualDrawRate
  rebLoop retsDict funds baseAnnualDraw inflationRate startYear
    (simulationMonths startYear endYear) holdings

/-! ## Validation layer (`app/services/validation.py`)

Error messages are modelled as inductive values carrying the quantities the
Python f-strings interpolate; a function returning `[]` corresponds to the
Python function returning normally, a nonempty list to it raising
`ValueError` with those messages joined. -/

/-- A fund entry of a scenario as validation sees it (`fund.get('name')`,
`fund.get('weight')`). -/
structure ScFund where
  name : Option String
  weight : Option ℚ
deriving DecidableEq, Repr

/-- A scenario as validation sees it (`scenario.get('strategy_type')`,
`scenario.get('funds', [])`). -/
structure Scenario where
  strategy_type : Option String
  funds : List ScFund
deriving DecidableEq, Repr

/-- Python truthiness test `not s` on an optional string: missing and empty
are falsy. -/
def strFalsy : Option String → Bool
  | none => true
  | some s => s.isEmpty

/-- Errors of `validate_simulation_parameters`. -/
inductive PError where
  | startAfterEnd
  | drawRateOutOfRange (rate : ℚ)
  | inflationRateOutOfRange (rate : ℚ)
deriving DecidableEq, Repr

/-- Model of `validate_simulation_parameters`: collect all violations of the global
parameters. -/
def validate_simulation_parameters (startYear endYear : ℤ)
    (annualDrawRate inflationRate : ℚ) : List PError :=
  (if startYear > endYear then [.startAfterEnd] else []) ++
  (if ¬ (0 ≤ annualDrawRate ∧ annualDrawRate ≤ 1)
   then [.drawRateOutOfRange annualDrawRate] else []) ++
  (if ¬ (0 ≤ inflationRate ∧ inflationRate ≤ 1)
   then [.inflationRateOutOfRange inflationRate] else [])

/-- Errors of `validate_scenario`; `who` fields carry `fund.get('name', i+1)`. -/
inductive VError where
  | missingStrategyType
  | noFunds (strategyType : Option String)
  | fundMissingName (idx : ℕ) (strategyType : Option String)
  | fundNotFound (name : String)
  | noFetchedData (ticker : String) (name : String)
  | rebNotEnoughFunds (got : ℕ)
  | missingWeight (who : String ⊕ ℕ)
  | invalidWeight (who : String ⊕ ℕ) (w : ℚ)
  | weightSumNotOne (total : ℚ)
  | singleFundWrongCount (got : ℕ)
deriving DecidableEq, Repr

/-- The `for i, fund in enumerate(funds)` name/ticker/data checks of
`validate_scenario` (with its `continue` short-circuits). -/
def validateFundNames (strategyType : Option String) (fundToTicker : List (String × String))
    (fetchedTickers : List String) : ℕ → List ScFund → List VError
  | _, [] => []
  | i, f :: fs =>
      (if strFalsy f.name then [.fundMissingName (i + 1) strategyType]
       else if (alookup fundToTicker (f.name.getD "")).isNone then
         [.fundNotFound (f.name.getD "")]
       else if (alookup fundToTicker (f.name.getD "")).getD "" ∈ fetchedTickers then []
       else [.noFetchedData ((alookup fundToTicker (f.name.getD "")).getD "")
          (f.name.getD "")]) ++
      validateFundNames strategyType fundToTicker fetchedTickers (i + 1) fs

/-- Model of `fund.get('name', i+1)`, used in weight error messages. -/
def whoOf (i : ℕ) (f : ScFund) : String ⊕ ℕ :=
  match f.name with
  | some s => Sum.inl s
  | none => Sum.inr (i + 1)

/-- The Rebalancing weight loop of `validate_scenario`: per-fund weight
errors together with the list of valid weights collected. -/
def collectWeights : ℕ → List ScFund → List VError × List ℚ
  | _, [] => ([], [])
  | i, f :: fs =>
      let rest := collectWeights (i + 1) fs
      match f.weight with
      | none => (.missingWeight (whoOf i f) :: rest.1, rest.2)
      | some w =>
          if 0 < w ∧ w ≤ 1 then (rest.1, w :: rest.2)
          else (.invalidWeight (whoOf i f) w :: rest.1, rest.2)

/-- Model of `validate_scenario`: aggregate every violation of one scenario's
structure and funds, in the order the Python code appends them. -/
def validate_scenario (scenario : Scenario) (fundToTicker : List (String × String))
    (fetchedTickers : List String) : List VError :=
  (if strFalsy scenario.strategy_type then [.missingStrategyType] else []) ++
  (if scenario.funds.isEmpty then [.noFunds scenario.strategy_type] else []) ++
  validateFundNames scenario.strategy_type fundToTicker fetchedTickers 0 scenario.funds ++
  (if scenario.strategy_type = some "Rebalancing Strategy" then
    (if scenario.funds.length < 2 then [.rebNotEnoughFunds scenario.funds.length] else []) ++
    (collectWeights 0 scenario.funds).1 ++
    (if (collectWeights 0 scenario.funds).2 ≠ [] ∧
        |(collectWeights 0 scenario.funds).2.sum - 1| > 1 / 1000000
     then [.weightSumNotOne (collectWeights 0 scenario.funds).2.sum] else [])
   else []) ++
  (if scenario.strategy_type = some "Single Fund Strategy" ∧ scenario.funds.length ≠ 1
   then [.singleFundWrongCount scenario.funds.length] else [])

/-- Errors of `validate_single_fund_date_range`. -/
inductive DRError where
  | emptyData (fundName : String)
  | startsLate (fundName : String) (actualMin : Date)
  | endsEarly (fundName : String) (actualMax : Date)
deriving DecidableEq, Repr

/-- Model of `fund_data_df.index.min()`. -/
def indexMin (s : List (Date × ℚ)) : Date :=
  match s with
  | [] => ⟨0, 0, 0⟩
  | (d, _) :: rest => rest.foldl (fun a p => if Date.ltb p.1 a then p.1 else a) d

/-- Model of `fund_data_df.index.max()`. -/
def indexMax (s : List (Date × ℚ)) : Date :=
  match s with
  | [] => ⟨0, 0, 0⟩
  | (d, _) :: rest => rest.foldl (fun a p => if Date.ltb a p.1 then p.1 else a) d

/-- Model of `validate_single_fund_date_range`: empty data fails immediately;
otherwise the earliest index entry must not lie after January&nbsp;1 of the
requested start year, and the latest must not lie before January&nbsp;1 of
the requested end year. -/
def validate_single_fund_date_range (fundData : List (Date × ℚ))
    (requestedStartYear requestedEndYear : ℤ) (fundName : String) : List DRError :=
  if fundData.isEmpty then [.emptyData fundName]
  else
    (if Date.ltb (jan1 requestedStartYear) (indexMin fundData)
     then [.startsLate fundName (indexMin fundData)] else []) ++
    (if Date.ltb (indexMax fundData) (jan1 requestedEndYear)
     then [.endsEarly fundName (indexMax fundData)] else [])

/-- The `validated_funds` loop of `run_all_validations`: walk the fund names
of all scenarios in order, skip names already validated, run the date-range
check once per fresh name, and stop at the first failure. Returns the names
actually checked (in order) and the first failure, if any. -/
def dateRangeLoop (fundToTicker : List (String × String))
    (allFetchedFundData : String → List (Date × ℚ)) (startYear endYear : ℤ) :
    List String → List String → List String × Option (List DRError)
  | [], _ => ([], none)
  | n :: ns, seen =>
      if n ∈ seen then dateRangeLoop fundToTicker allFetchedFundData startYear endYear ns seen
      else
        let errs := validate_single_fund_date_range
          (allFetchedFundData ((alookup fundToTicker n).getD "")) startYear endYear n
        if errs.isEmpty then
          ((n :: (dateRangeLoop fundToTicker allFetchedFundData startYear endYear ns
              (seen ++ [n])).1),
           (dateRangeLoop fundToTicker allFetchedFundData startYear endYear ns
              (seen ++ [n])).2)
        else ([n], some errs)

/-- All fund names referenced by the scenarios, in traversal order. -/
def scenarioFundNames (scenarios : List Scenario) : List String :=
  (scenarios.map (fun sc => sc.funds.map (fun f => f.name.getD ""))).flatten

/-- The per-scenario loop of `run_all_validations`: the first failing
scenario's 1-based index and errors. -/
def scenariosErrors (fundToTicker : List (String × String)) (fetchedTickers : List String) :
    ℕ → List Scenario → Option (ℕ × List VError)
  | _, [] => none
  | i, sc :: rest =>
      if (validate_scenario sc fundToTicker fetchedTickers).isEmpty then
        scenariosErrors fundToTicker fetchedTickers (i + 1) rest
      else some (i + 1, validate_scenario sc fundToTicker fetchedTickers)

/-- The first validation failure raised by `run_all_validations`, if any:
global parameters, then each scenario in order, then date coverage once per
distinct fund name. -/
inductive RunError where
  | params (errs : List PError)
  | scenario (idx : ℕ) (errs : List VError)
  | dateRange (errs : List DRError)
deriving DecidableEq, Repr

/-- Model of `run_all_validations`. -/
def run_all_validations (scenarios : List Scenario) (fundToTicker : List (String × String))
    (fetchedTickers : List String) (allFetchedFundData : String → List (Date × ℚ))
    (startYear endYear : ℤ) (annualDrawRate inflationRate : ℚ) : Option RunError :=
  if ¬ (validate_simulation_parameters startYear endYear annualDrawRate
      inflationRate).isEmpty then
    some (.params (validate_simulation_parameters startYear endYear annualDrawRate
      inflationRate))
  else
    match scenariosErrors fundToTicker fetchedTickers 0 scenarios with
    | some (i, errs) => some (.scenario i errs)
    | none =>
        match (dateRangeLoop fundToTicker allFetchedFundData startYear endYear
            (scenarioFundNames scenarios) []).2 with
        | some errs => some (.dateRange errs)
        | none => none

/-! ## Orchestrator (`app/services/strategy_engine.py`,
`app/services/simulation_service.py`) -/

/-- A scenario as the engine reads it, after validation and ticker
enrichment. -/
structure EScenario where
  strategy_type : String
  funds : List EFund
deriving Repr

/-- The label `f"Scenario {i+1}: {scenario['strategy_type']}"`. -/
def scenarioName (i : ℕ) (strategyType : String) : String :=
  "Scenario " ++ toString (i + 1) ++ ": " ++ strategyType

/-- The scenario loop of `run_strategy_simulations`: labelled outputs of the
known-strategy scenarios (the `strategy_map` dispatch), plus the printed
diagnostics for skipped unknown-strategy scenarios. -/
def run_strategy_simulations_go (allFetchedFundData : String → List (Date × ℚ))
    (initialCorpus : ℚ) (startYear endYear : ℤ) (annualDrawRate inflationRate : ℚ) :
    ℕ → List EScenario → List (String × List Row) × List String
  | _, [] => ([], [])
  | i, sc :: rest =>
      let next := run_strategy_simulations_go allFetchedFundData initialCorpus startYear
        endYear annualDrawRate inflationRate (i + 1) rest
      if sc.strategy_type = "Single Fund Strategy" then
        ((scenarioName i sc.strategy_type,
          SingleFundStrategy.simulate sc.funds allFetchedFundData initialCorpus startYear
            endYear annualDrawRate inflationRate) :: next.1, next.2)
      else if sc.strategy_type = "Rebalancing Strategy" then
        ((scenarioName i sc.strategy_type,
          RebalancingStrategy.simulate sc.funds allFetchedFundData initialCorpus startYear
            endYear annualDrawRate inflationRate) :: next.1, next.2)
      else
        (next.1, ("Error: Unknown strategy type '" ++ sc.strategy_type
          ++ "'. Skipping scenario.") :: next.2)

/-- Model of `run_strategy_simulations`. -/
def run_strategy_simulations (scenarios : List EScenario)
    (allFetchedFundData : String → List (Date × ℚ)) (initialCorpus : ℚ)
    (startYear endYear : ℤ) (annualDrawRate inflationRate : ℚ) :
    List (String × List Row) × List String :=
  run_strategy_simulations_go allFetchedFundData initialCorpus startYear endYear
    annualDrawRate inflationRate 0 scenarios

/-- The ticker enrichment `prepare_simulation_inputs` performs on each
scenario fund before validation and simulation. -/
def enrichScenario (fundToTicker : List (String × String)) (sc : Scenario) : EScenario :=
  { strategy_type := sc.strategy_type.getD "",
    funds := sc.funds.map (fun f =>
      { name := f.name.getD "",
        ticker := (alookup fundToTicker (f.name.getD "")).getD "",
        weight := f.weight.getD 0 }) }

/-- The validation-then-simulation core of `run_simulation`
(`simulation_service.py`), with the external data fetch and the plotting
omitted: any validation failure is raised before any simulation runs. -/
def run_simulation (scenarios : List Scenario) (fundToTicker : List (String × String))
    (fetchedTickers : List String) (allFetchedFundData : String → List (Date × ℚ))
    (initialCorpus : ℚ) (startYear endYear : ℤ) (annualDrawRate inflationRate : ℚ) :
    Except RunError (List (String × List Row) × List String) :=
  match run_all_validations scenarios fundToTicker fetchedTickers allFetchedFundData
      startYear endYear annualDrawRate inflationRate with
  | some e => .error e
  | none => .ok (run_strategy_simulations (scenarios.map (enrichScenario fundToTicker))
      allFetchedFundData initialCorpus startYear endYear annualDrawRate inflationRate)

/-! ## Decimal digits, for reasoning about scenario labels -/

/-- The significant decimal digits of a number, most significant first
(what `Nat.toDigitsCore` produces). -/
def sigDigits (n : ℕ) : List Char :=
  if _h : n < 10 then [Nat.digitChar n]
  else sigDigits (n / 10) ++ [Nat.digitChar (n % 10)]
decreasing_by exact Nat.div_lt_self (by omega) (by omega)

/-- Read a digit string back into the number it denotes. -/
def decDigits (l : List Char) (acc : ℕ) : ℕ :=
  l.foldl (fun a c => a * 10 + (c.toNat - 48)) acc

/-! ## Lemmas about the Rebalancing month loop -/

/-- A row's ending corpus is the value sum of the holdings dict handed to
the next month. -/
theorem rebOneMonth_ending (retsDict : List (String × List (Date × Option ℚ)))
    (funds : List EFund) (bad infl : ℚ) (sy : ℤ) (d : Date) (h : List (String × ℚ)) :
    (rebOneMonth retsDict funds bad infl sy d h).1.endingCorpus
      = dictValuesSum (rebOneMonth retsDict funds bad infl sy d h).2 := rfl

/-- A row's reported monthly draw: the inflation-adjusted annual draw over
twelve in December, zero otherwise. -/
theorem rebOneMonth_draw (retsDict : List (String × List (Date × Option ℚ)))
    (funds : List EFund) (bad infl : ℚ) (sy : ℤ) (d : Date) (h : List (String × ℚ)) :
    (rebOneMonth retsDict funds bad infl sy d h).1.monthlyDraw
      = if d.month = 12 then bad * (1 + infl) ^ (d.year - sy).toNat / 12 else 0 := rfl

/-- A row's yearMonth label is the month the step was taken at. -/
theorem rebOneMonth_yearMonth (retsDict : List (String × List (Date × Option ℚ)))
    (funds : List EFund) (bad infl : ℚ) (sy : ℤ) (d : Date) (h : List (String × ℚ)) :
    (rebOneMonth retsDict funds bad infl sy d h).1.yearMonth = d := rfl

/-- The head of a nonempty Rebalancing month loop starts at the value sum of
the holdings the loop was entered with. -/
theorem rebLoop_head_start {retsDict : List (String × List (Date × Option ℚ))}
    {funds : List EFund} {bad infl : ℚ} {sy : ℤ} {months : List Date}
    {h : List (String × ℚ)} {row : Row}
    (hh : (rebLoop retsDict funds bad infl sy months h).head? = some row) :
    row.startingCorpus = dictValuesSum h := by
  cases months with
  | nil => simp [rebLoop] at hh
  | cons d rest =>
      rw [rebLoop] at hh
      simp only [List.head?_cons, Option.some.injEq] at hh
      subst hh; rfl

/-- Every row of the Rebalancing month loop is produced by `rebOneMonth` at
its own yearMonth and some holdings state. -/
theorem rebLoop_mem {retsDict : List (String × List (Date × Option ℚ))}
    {funds : List EFund} {bad infl : ℚ} {sy : ℤ} :
    ∀ {months : List Date} {h : List (String × ℚ)} {row : Row},
      row ∈ rebLoop retsDict funds bad infl sy months h →
      ∃ h0, row = (rebOneMonth retsDict funds bad infl sy row.yearMonth h0).1 := by
  intro months
  induction months with
  | nil => intro h row hm; simp [rebLoop] at hm
  | cons d rest ih =>
      intro h row hm
      rw [rebLoop] at hm
      rcases List.mem_cons.mp hm with hm | hm
      · exact ⟨h, by rw [hm]; rfl⟩
      · exact ih hm

/-- The Rebalancing month loop emits its rows with the yearMonth labels of
the months it was given, in order. -/
theorem rebLoop_map_yearMonth (retsDict : List (String × List (Date × Option ℚ)))
    (funds : List EFund) (bad infl : ℚ) (sy : ℤ) :
    ∀ (months : List Date) (h : List (String × ℚ)),
      (rebLoop retsDict funds bad infl sy months h).map Row.yearMonth = months := by
  intro months
  induction months with
  | nil => intro h; rfl
  | cons d rest ih => intro h; rw [rebLoop]; simp only [List.map_cons]; rw [ih]; rfl

/-- Consecutive rows of the Rebalancing month loop chain the corpus. -/
theorem rebLoop_chain (retsDict : List (String × List (Date × Option ℚ)))
    (funds : List EFund) (bad infl : ℚ) (sy : ℤ) :
    ∀ (months : List Date) (h : List (String × ℚ)),
      List.Chain' (fun a b => a.endingCorpus = b.startingCorpus)
        (rebLoop retsDict funds bad infl sy months h) := by
  intro months
  induction months with
  | nil => intro h; simp [rebLoop]
  | cons d rest ih =>
      intro h
      rw [rebLoop]
      refine List.chain'_cons'.mpr ⟨?_, ih _⟩
      intro y hy
      rw [rebLoop_head_start hy]
      rfl

/-! ## Lemmas about month enumeration and return lookup -/

/-- The list `simulationMonths` always has `12 * (endYear - startYear + 1)` entries. -/
theorem simulationMonths_length (sy ey : ℤ) :
    (simulationMonths sy ey).length = 12 * (ey - sy + 1).toNat := by
  simp [simulationMonths]

/-- The `j`-th simulated month is month `j % 12 + 1` of year `sy + j / 12`:
the months run in chronological order, January of the start year first. -/
theorem simulationMonths_get (sy ey : ℤ) (j : ℕ) (hj : j < (simulationMonths sy ey).length) :
    (simulationMonths sy ey).get ⟨j, hj⟩ = ⟨sy + (j / 12 : ℕ), j % 12 + 1, 1⟩ := by
  simp [simulationMonths]

/-- Applying `pct_change` keeps the series' dates unchanged. -/
theorem pctChangeFrom_map_fst (p : ℚ) :
    ∀ s : List (Date × ℚ), (pctChangeFrom p s).map Prod.fst = s.map Prod.fst := by
  intro s
  induction s generalizing p with
  | nil => rfl
  | cons a rest ih =>
      obtain ⟨d, q⟩ := a
      rw [pctChangeFrom]
      simp only [List.map_cons]
      rw [ih]

/-- Applying `pct_change` keeps the series' dates unchanged. -/
theorem pctChange_map_fst (s : List (Date × ℚ)) :
    (pctChange s).map Prod.fst = s.map Prod.fst := by
  cases s with
  | nil => rfl
  | cons a rest =>
      obtain ⟨d, q⟩ := a
      rw [pctChange]
      simp only [List.map_cons]
      rw [pctChangeFrom_map_fst]

/-- Looking up a key that is not among an association list's keys yields
nothing. -/
theorem alookup_eq_none {α : Type} {l : List (Date × α)} {d : Date}
    (h : d ∉ l.map Prod.fst) : alookup l d = none := by
  unfold alookup
  rw [List.find?_eq_none.mpr]
  · rfl
  · intro p hp hd
    exact h (List.mem_map.mpr ⟨p, hp, by simpa using hd⟩)

/-- A month with no entry in the fund's price series contributes a monthly
return of exactly zero. -/
theorem retAt_of_not_mem {s : List (Date × ℚ)} {d : Date}
    (h : d ∉ s.map Prod.fst) : retAt (pctChange s) d = 0 := by
  unfold retAt
  rw [alookup_eq_none]
  rw [pctChange_map_fst]
  exact h

/-! ## Dict lemmas -/

theorem alookup_nil {κ α : Type} [DecidableEq κ] (k : κ) :
    alookup ([] : List (κ × α)) k = none := rfl

theorem alookup_cons {κ α : Type} [DecidableEq κ] (p : κ × α) (l : List (κ × α)) (k : κ) :
    alookup (p :: l) k = if p.1 = k then some p.2 else alookup l k := by
  unfold alookup
  by_cases h : p.1 = k <;> simp [List.find?_cons, h]

theorem alookup_append {κ α : Type} [DecidableEq κ] (l₁ l₂ : List (κ × α)) (k : κ) :
    alookup (l₁ ++ l₂) k = (alookup l₁ k).or (alookup l₂ k) := by
  unfold alookup
  rw [List.find?_append]
  cases List.find? (fun p => decide (p.1 = k)) l₁ <;> simp

/-- Reading back the key just assigned. -/
theorem alookup_dictSet_self {α : Type} (d : List (String × α)) (k : String) (v : α) :
    alookup (dictSet d k v) k = some v := by
  unfold dictSet
  by_cases hk : (alookup d k).isSome
  · rw [if_pos hk]
    induction d with
    | nil => simp [alookup] at hk
    | cons p rest ih =>
        by_cases hp : p.1 = k
        · simp [List.map_cons, hp, alookup_cons]
        · have hk' : (alookup rest k).isSome := by
            rw [alookup_cons] at hk
            simpa [hp] using hk
          simpa [List.map_cons, hp, alookup_cons] using ih hk'
  · rw [if_neg hk, alookup_append, Option.not_isSome_iff_eq_none.mp hk]
    simp [alookup_cons]

/-- Replacing the value at one key leaves lookups of other keys unchanged. -/
theorem alookup_map_setKey_ne {α : Type} (d : List (String × α)) (k k' : String) (v : α)
    (hne : k' ≠ k) :
    alookup (d.map (fun p => if p.1 = k then (k, v) else p)) k' = alookup d k' := by
  induction d with
  | nil => rfl
  | cons p rest ih =>
      by_cases hp : p.1 = k
      · have h2 : ¬ p.1 = k' := by rw [hp]; exact fun h => hne h.symm
        have h3 : ¬ k = k' := fun h => hne h.symm
        simp only [List.map_cons, hp, if_true, alookup_cons]
        simp only [h3, if_false, h2, ih]
      · simp only [List.map_cons, hp, if_false, alookup_cons]
        by_cases hq : p.1 = k'
        · simp [hq]
        · simp only [hq, if_false, ih]

/-- Assigning one key of a dict leaves every other key's value unchanged. -/
theorem alookup_dictSet_ne {α : Type} (d : List (String × α)) (k k' : String) (v : α)
    (hne : k' ≠ k) : alookup (dictSet d k v) k' = alookup d k' := by
  unfold dictSet
  by_cases hk : (alookup d k).isSome
  · rw [if_pos hk]
    exact alookup_map_setKey_ne d k k' v hne
  · rw [if_neg hk, alookup_append]
    have h3 : ¬ k = k' := fun h => hne h.symm
    have : alookup [(k, v)] k' = none := by
      rw [alookup_cons, if_neg h3]
      rfl
    rw [this, Option.or_none]

/-- Assigning an existing key keeps the dict's key list unchanged. -/
theorem dictKeys_dictSet_of_mem {α : Type} (d : List (String × α)) (k : String) (v : α)
    (hk : (alookup d k).isSome) : dictKeys (dictSet d k v) = dictKeys d := by
  unfold dictSet
  simp only [hk, if_true]
  unfold dictKeys
  rw [List.map_map]
  apply List.map_congr_left
  intro p _
  by_cases hp : p.1 = k <;> simp [hp]

/-- A key present among a dict's keys looks up to something. -/
theorem alookup_isSome_of_mem_keys {α : Type} {d : List (String × α)} {k : String}
    (h : k ∈ dictKeys d) : (alookup d k).isSome := by
  induction d with
  | nil => simp [dictKeys] at h
  | cons p rest ih =>
      rw [alookup_cons]
      by_cases hp : p.1 = k
      · simp [hp]
      · rw [if_neg hp]
        rcases List.mem_cons.mp h with h | h
        · exact absurd h.symm hp
        · exact ih h

theorem dgetD_dictSet_self {α : Type} (d : List (String × α)) (k : String) (v dflt : α) :
    dgetD (dictSet d k v) k dflt = v := by
  unfold dgetD
  rw [alookup_dictSet_self]
  rfl

theorem dgetD_dictSet_ne {α : Type} (d : List (String × α)) (k k' : String) (v dflt : α)
    (hne : k' ≠ k) : dgetD (dictSet d k v) k' dflt = dgetD d k' dflt := by
  unfold dgetD
  rw [alookup_dictSet_ne d k k' v hne]

/-- Inserting pairwise-fresh keys into a dict just appends them. -/
theorem foldl_dictSet_fresh {α : Type} :
    ∀ (l acc : List (String × α)),
      (l.map Prod.fst).Nodup →
      (∀ p ∈ l, alookup acc p.1 = none) →
      l.foldl (fun d p => dictSet d p.1 p.2) acc = acc ++ l := by
  intro l
  induction l with
  | nil => intro acc _ _; simp
  | cons p rest ih =>
      intro acc hnd hfresh
      have hnd2 : p.1 ∉ rest.map Prod.fst ∧ (rest.map Prod.fst).Nodup := by
        rw [List.map_cons, List.nodup_cons] at hnd
        exact hnd
      have hp : alookup acc p.1 = none := hfresh p (List.mem_cons_self p rest)
      have hset : dictSet acc p.1 p.2 = acc ++ [p] := by
        unfold dictSet
        rw [if_neg (by rw [hp]; simp)]
      have hfresh' : ∀ q ∈ rest, alookup (acc ++ [p]) q.1 = none := by
        intro q hq
        rw [alookup_append, hfresh q (List.mem_cons_of_mem p hq)]
        have hqp : ¬ p.1 = q.1 := by
          intro hcontra
          apply hnd2.1
          rw [hcontra]
          exact List.mem_map.mpr ⟨q, hq, rfl⟩
        rw [alookup_cons, if_neg hqp]
        rfl
      rw [List.foldl_cons, hset, ih (acc ++ [p]) hnd2.2 hfresh']
      simp

/-- A dict built from pairwise-distinct keys is just the list itself. -/
theorem buildDict_nodup {α : Type} (l : List (String × α))
    (hnd : (l.map Prod.fst).Nodup) : buildDict l = l := by
  unfold buildDict
  rw [foldl_dictSet_fresh l [] hnd (fun p _ => rfl)]
  rfl

/-- With pairwise-distinct keys, the sum of a dict's values is the sum of
its per-key reads. -/
theorem dictValuesSum_eq_names :
    ∀ (h : List (String × ℚ)) (ns : List String),
      dictKeys h = ns → ns.Nodup →
      dictValuesSum h = (ns.map (fun n => dgetD h n 0)).sum := by
  intro h
  induction h with
  | nil => intro ns hk _; rw [← hk]; rfl
  | cons p rest ih =>
      intro ns hk hnd
      rcases p with ⟨k, v⟩
      have hk' : ns = k :: dictKeys rest := by
        rw [← hk]; rfl
      subst hk'
      have hnodup := List.nodup_cons.mp hnd
      rw [List.map_cons, List.sum_cons]
      have hhead : dgetD ((k, v) :: rest) k 0 = v := by
        unfold dgetD
        rw [alookup_cons, if_pos rfl]
        rfl
      rw [hhead]
      have htail : (dictKeys rest).map (fun n => dgetD ((k, v) :: rest) n 0)
          = (dictKeys rest).map (fun n => dgetD rest n 0) := by
        apply List.map_congr_left
        intro n hn
        have hnk : ¬ (k : String) = n := fun hcontra => hnodup.1 (hcontra ▸ hn)
        unfold dgetD
        rw [alookup_cons, if_neg hnk]
      rw [htail, ← ih (dictKeys rest) rfl hnodup.2]
      rfl

/-- What the growth loop of one Rebalancing month does, fund names being
pairwise distinct and all present as holdings keys: each fund's holding is
multiplied by one plus its own return, other keys are untouched, and the
two accumulators collect the post-growth total and the starting-holding
weighted return numerator. -/
theorem rebGrow_spec (retsDict : List (String × List (Date × Option ℚ))) (d : Date) :
    ∀ (funds : List EFund) (h : List (String × ℚ)) (cag num : ℚ),
      (funds.map EFund.name).Nodup →
      (∀ f ∈ funds, f.name ∈ dictKeys h) →
      (∀ f ∈ funds, dgetD (rebGrow retsDict d funds (h, cag, num)).1 f.name 0
          = dgetD h f.name 0 * (1 + retAt (dgetD retsDict f.name []) d)) ∧
      (∀ n, n ∉ funds.map EFund.name →
          alookup (rebGrow retsDict d funds (h, cag, num)).1 n = alookup h n) ∧
      dictKeys (rebGrow retsDict d funds (h, cag, num)).1 = dictKeys h ∧
      (rebGrow retsDict d funds (h, cag, num)).2.1
        = cag + (funds.map (fun f =>
            dgetD h f.name 0 * (1 + retAt (dgetD retsDict f.name []) d))).sum ∧
      (rebGrow retsDict d funds (h, cag, num)).2.2
        = num + (funds.map (fun f =>
            dgetD h f.name 0 * retAt (dgetD retsDict f.name []) d)).sum := by
  intro funds
  induction funds with
  | nil =>
      intro h cag num _ _
      refine ⟨by simp, fun n _ => rfl, rfl, by simp [rebGrow], by simp [rebGrow]⟩
  | cons f fs ih =>
      intro h cag num hnd hkeys
      have hnodup : f.name ∉ fs.map EFund.name ∧ (fs.map EFund.name).Nodup := by
        rw [List.map_cons, List.nodup_cons] at hnd
        exact hnd
      have hfname : f.name ∉ fs.map EFund.name := hnodup.1
      have hgne : ∀ g ∈ fs, g.name ≠ f.name := by
        intro g hg hcontra
        apply hfname
        rw [← hcontra]
        exact List.mem_map.mpr ⟨g, hg, rfl⟩
      set r := retAt (dgetD retsDict f.name []) d with hr
      set sh := dgetD h f.name 0 with hsh
      set h1 := dictSet h f.name (sh * (1 + r)) with hh1
      have hkeys1 : dictKeys h1 = dictKeys h :=
        dictKeys_dictSet_of_mem h f.name _
          (alookup_isSome_of_mem_keys (hkeys f (List.mem_cons_self f fs)))
      have hstep : rebGrow retsDict d (f :: fs) (h, cag, num)
          = rebGrow retsDict d fs (h1, cag + sh * (1 + r), num + sh * r) := rfl
      have ihres := ih h1 (cag + sh * (1 + r)) (num + sh * r) hnodup.2 ?_
      · obtain ⟨ih1, ih2, ih3, ih4, ih5⟩ := ihres
        have hne_tail : ∀ g ∈ fs, dgetD h1 g.name 0 = dgetD h g.name 0 := by
          intro g hg
          exact dgetD_dictSet_ne h f.name g.name _ 0 (hgne g hg)
        refine ⟨?_, ?_, ?_, ?_, ?_⟩
        · intro g hg
          rcases List.mem_cons.mp hg with hg | hg
          · subst hg
            rw [hstep]
            unfold dgetD
            rw [ih2 g.name hfname, hh1, alookup_dictSet_self]
            rfl
          · rw [hstep, ih1 g hg, hne_tail g hg]
        · intro n hn
          have hn1 : n ∉ fs.map EFund.name := fun hcontra =>
            hn (List.mem_cons_of_mem _ hcontra)
          have hn2 : n ≠ f.name := fun hcontra => hn (by simp [hcontra])
          rw [hstep, ih2 n hn1, hh1, alookup_dictSet_ne h f.name n _ hn2]
        · rw [hstep, ih3, hkeys1]
        · rw [hstep, ih4, List.map_cons, List.sum_cons]
          have : fs.map (fun g => dgetD h1 g.name 0 * (1 + retAt (dgetD retsDict g.name []) d))
              = fs.map (fun g => dgetD h g.name 0 * (1 + retAt (dgetD retsDict g.name []) d)) := by
            apply List.map_congr_left
            intro g hg
            rw [hne_tail g hg]
          rw [this, add_assoc]
        · rw [hstep, ih5, List.map_cons, List.sum_cons]
          have : fs.map (fun g => dgetD h1 g.name 0 * retAt (dgetD retsDict g.name []) d)
              = fs.map (fun g => dgetD h g.name 0 * retAt (dgetD retsDict g.name []) d) := by
            apply List.map_congr_left
            intro g hg
            rw [hne_tail g hg]
          rw [this, add_assoc]
      · intro g hg
        rw [hkeys1]
        exact hkeys g (List.mem_cons_of_mem f hg)

/-- What the December redistribution loop does, fund names being pairwise
distinct and present: each fund's holding becomes the post-withdrawal
corpus times its configured weight; other keys are untouched. -/
theorem rebRedistribute_spec (caw : ℚ) :
    ∀ (funds : List EFund) (h : List (String × ℚ)),
      (funds.map EFund.name).Nodup →
      (∀ f ∈ funds, f.name ∈ dictKeys h) →
      (∀ f ∈ funds, dgetD (rebRedistribute caw funds h) f.name 0 = caw * f.weight) ∧
      (∀ n, n ∉ funds.map EFund.name →
          alookup (rebRedistribute caw funds h) n = alookup h n) ∧
      dictKeys (rebRedistribute caw funds h) = dictKeys h := by
  intro funds
  induction funds with
  | nil => intro h _ _; exact ⟨by simp, fun n _ => rfl, rfl⟩
  | cons f fs ih =>
      intro h hnd hkeys
      have hnodup : f.name ∉ fs.map EFund.name ∧ (fs.map EFund.name).Nodup := by
        rw [List.map_cons, List.nodup_cons] at hnd
        exact hnd
      have hfname : f.name ∉ fs.map EFund.name := hnodup.1
      have hgne : ∀ g ∈ fs, g.name ≠ f.name := by
        intro g hg hcontra
        apply hfname
        rw [← hcontra]
        exact List.mem_map.mpr ⟨g, hg, rfl⟩
      set h1 := dictSet h f.name (caw * f.weight) with hh1
      have hkeys1 : dictKeys h1 = dictKeys h :=
        dictKeys_dictSet_of_mem h f.name _
          (alookup_isSome_of_mem_keys (hkeys f (List.mem_cons_self f fs)))
      have hstep : rebRedistribute caw (f :: fs) h = rebRedistribute caw fs h1 := rfl
      have ihres := ih h1 hnodup.2 ?_
      · obtain ⟨ih1, ih2, ih3⟩ := ihres
        refine ⟨?_, ?_, ?_⟩
        · intro g hg
          rcases List.mem_cons.mp hg with hg | hg
          · subst hg
            rw [hstep]
            unfold dgetD
            rw [ih2 g.name hfname, hh1, alookup_dictSet_self]
            rfl
          · rw [hstep, ih1 g hg]
        · intro n hn
          have hn1 : n ∉ fs.map EFund.name := fun hcontra =>
            hn (List.mem_cons_of_mem _ hcontra)
          have hn2 : n ≠ f.name := fun hcontra => hn (by simp [hcontra])
          rw [hstep, ih2 n hn1, hh1, alookup_dictSet_ne h f.name n _ hn2]
        · rw [hstep, ih3, hkeys1]
      · intro g hg
        rw [hkeys1]
        exact hkeys g (List.mem_cons_of_mem f hg)

/-- Full characterization of one Rebalancing month, fund names being
pairwise distinct and the holdings dict keyed exactly by them: the row's
starting corpus is the sum of starting holdings, its post-growth corpus
the sum of independently grown holdings, its reported return the
starting-weighted average of per-fund returns guarded against a zero
denominator; in a non-December month nothing is withdrawn and holdings
merely drift, in December the full inflation-adjusted annual draw leaves
the corpus and the remainder is split by configured weights. -/
theorem rebOneMonth_spec (retsDict : List (String × List (Date × Option ℚ)))
    (funds : List EFund) (bad infl : ℚ) (sy : ℤ) (d : Date) (h : List (String × ℚ))
    (row : Row) (h' : List (String × ℚ))
    (heq : rebOneMonth retsDict funds bad infl sy d h = (row, h'))
    (hnd : (funds.map EFund.name).Nodup)
    (hkeys : dictKeys h = funds.map EFund.name) :
    row.startingCorpus = (funds.map (fun f => dgetD h f.name 0)).sum ∧
    row.corpusAfterGrowth
      = (funds.map (fun f => dgetD h f.name 0 * (1 + retAt (dgetD retsDict f.name []) d))).sum ∧
    row.monthlyReturn
      = (if row.startingCorpus = 0 then 0
         else (funds.map (fun f => dgetD h f.name 0 * retAt (dgetD retsDict f.name []) d)).sum
           / row.startingCorpus) ∧
    dictKeys h' = funds.map EFund.name ∧
    (d.month ≠ 12 →
        row.monthlyDraw = 0 ∧
        (∀ f ∈ funds, dgetD h' f.name 0
            = dgetD h f.name 0 * (1 + retAt (dgetD retsDict f.name []) d)) ∧
        row.endingCorpus = row.corpusAfterGrowth) ∧
    (d.month = 12 →
        row.monthlyDraw = bad * (1 + infl) ^ (d.year - sy).toNat / 12 ∧
        (∀ f ∈ funds, dgetD h' f.name 0
            = (row.corpusAfterGrowth - bad * (1 + infl) ^ (d.year - sy).toNat) * f.weight) ∧
        row.endingCorpus
          = (row.corpusAfterGrowth - bad * (1 + infl) ^ (d.year - sy).toNat)
              * (funds.map EFund.weight).sum) := by
  have hkeysmem : ∀ f ∈ funds, f.name ∈ dictKeys h := by
    intro f hf
    rw [hkeys]
    exact List.mem_map.mpr ⟨f, hf, rfl⟩
  obtain ⟨g1, g2, g3, g4, g5⟩ := rebGrow_spec retsDict d funds h 0 0 hnd hkeysmem
  have hstart : dictValuesSum h = (funds.map (fun f => dgetD h f.name 0)).sum := by
    rw [dictValuesSum_eq_names h (funds.map EFund.name) hkeys (hkeys ▸ hkeys ▸ hnd),
      List.map_map]
    rfl
  have hg4' : (rebGrow retsDict d funds (h, 0, 0)).2.1
      = (funds.map (fun f => dgetD h f.name 0 * (1 + retAt (dgetD retsDict f.name []) d))).sum := by
    rw [g4, zero_add]
  have hg5' : (rebGrow retsDict d funds (h, 0, 0)).2.2
      = (funds.map (fun f => dgetD h f.name 0 * retAt (dgetD retsDict f.name []) d)).sum := by
    rw [g5, zero_add]
  have hgrownSum : dictValuesSum (rebGrow retsDict d funds (h, 0, 0)).1
      = (rebGrow retsDict d funds (h, 0, 0)).2.1 := by
    rw [dictValuesSum_eq_names (rebGrow retsDict d funds (h, 0, 0)).1 (funds.map EFund.name)
        (g3.trans hkeys) hnd, List.map_map, hg4']
    show (funds.map (fun f => dgetD (rebGrow retsDict d funds (h, 0, 0)).1 f.name 0)).sum = _
    rw [List.map_congr_left (fun f hf => g1 f hf)]
  have hrow : row = (rebOneMonth retsDict funds bad infl sy d h).1 := by rw [heq]
  have hh2 : h' = (rebOneMonth retsDict funds bad infl sy d h).2 := by rw [heq]
  have hrs : row.startingCorpus = dictValuesSum h := by rw [hrow]; rfl
  have hrg : row.corpusAfterGrowth = (rebGrow retsDict d funds (h, 0, 0)).2.1 := by
    rw [hrow]; rfl
  have hrr : row.monthlyReturn
      = (if dictValuesSum h = 0 then 0
         else (rebGrow retsDict d funds (h, 0, 0)).2.2 / dictValuesSum h) := by
    rw [hrow]; rfl
  have hrd : row.monthlyDraw
      = (if d.month = 12 then bad * (1 + infl) ^ (d.year - sy).toNat / 12 else 0) := by
    rw [hrow]; rfl
  have hh2eq : h'
      = (if d.month = 12 then
          rebRedistribute ((rebGrow retsDict d funds (h, 0, 0)).2.1
            - bad * (1 + infl) ^ (d.year - sy).toNat) funds (rebGrow retsDict d funds (h, 0, 0)).1
         else (rebGrow retsDict d funds (h, 0, 0)).1) := by
    rw [hh2]; rfl
  have hre : row.endingCorpus = dictValuesSum h' := by rw [hrow, hh2]; rfl
  refine ⟨by rw [hrs, hstart], by rw [hrg, hg4'], ?_, ?_, ?_, ?_⟩
  · rw [hrr, hrs, hg5']
  · by_cases hdec : d.month = 12
    · rw [hh2eq, if_pos hdec]
      obtain ⟨r1, r2, r3⟩ := rebRedistribute_spec _ funds (rebGrow retsDict d funds (h, 0, 0)).1
        hnd (fun f hf => by rw [g3.trans hkeys]; exact List.mem_map.mpr ⟨f, hf, rfl⟩)
      rw [r3, g3.trans hkeys]
    · rw [hh2eq, if_neg hdec, g3.trans hkeys]
  · intro hdec
    refine ⟨by rw [hrd, if_neg hdec], ?_, ?_⟩
    · intro f hf
      rw [hh2eq, if_neg hdec]
      exact g1 f hf
    · rw [hre, hh2eq, if_neg hdec, hgrownSum, hrg]
  · intro hdec
    obtain ⟨r1, r2, r3⟩ := rebRedistribute_spec
      ((rebGrow retsDict d funds (h, 0, 0)).2.1 - bad * (1 + infl) ^ (d.year - sy).toNat)
      funds (rebGrow retsDict d funds (h, 0, 0)).1
      hnd (fun f hf => by rw [g3.trans hkeys]; exact List.mem_map.mpr ⟨f, hf, rfl⟩)
    refine ⟨by rw [hrd, if_pos hdec], ?_, ?_⟩
    · intro f hf
      rw [hh2eq, if_pos hdec, r1 f hf, hrg]
    · rw [hre, hh2eq, if_pos hdec]
      rw [dictValuesSum_eq_names _ (funds.map EFund.name) (r3.trans (g3.trans hkeys)) hnd,
        List.map_map]
      have : (funds.map (fun f => dgetD (rebRedistribute
          ((rebGrow retsDict d funds (h, 0, 0)).2.1 - bad * (1 + infl) ^ (d.year - sy).toNat)
          funds (rebGrow retsDict d funds (h, 0, 0)).1) f.name 0)).sum
          = (funds.map (fun f => ((rebGrow retsDict d funds (h, 0, 0)).2.1
              - bad * (1 + infl) ^ (d.year - sy).toNat) * f.weight)).sum := by
        apply congrArg
        exact List.map_congr_left (fun f hf => r1 f hf)
      rw [hrg]
      refine Eq.trans (by exact this) ?_
      rw [List.sum_map_mul_left]

/-- Every row of the Rebalancing month loop arises from `rebOneMonth` at a
holdings state keyed exactly by the fund names, provided the loop starts in
such a state and fund names are pairwise distinct. -/
theorem rebLoop_mem_inv {retsDict : List (String × List (Date × Option ℚ))}
    {funds : List EFund} {bad infl : ℚ} {sy : ℤ}
    (hnd : (funds.map EFund.name).Nodup) :
    ∀ {months : List Date} {h : List (String × ℚ)} {row : Row},
      dictKeys h = funds.map EFund.name →
      row ∈ rebLoop retsDict funds bad infl sy months h →
      ∃ h0 h1, dictKeys h0 = funds.map EFund.name ∧
        rebOneMonth retsDict funds bad infl sy row.yearMonth h0 = (row, h1) := by
  intro months
  induction months with
  | nil => intro h row _ hm; simp [rebLoop] at hm
  | cons d rest ih =>
      intro h row hkeys hm
      rw [rebLoop] at hm
      rcases List.mem_cons.mp hm with hm | hm
      · refine ⟨h, (rebOneMonth retsDict funds bad infl sy d h).2, hkeys, ?_⟩
        rw [hm]
        rfl
      · have hkeys' := (rebOneMonth_spec retsDict funds bad infl sy d h
          (rebOneMonth retsDict funds bad infl sy d h).1
          (rebOneMonth retsDict funds bad infl sy d h).2 rfl hnd hkeys).2.2.2.1
        exact ih hkeys' hm

/-- A simulation over a well-ordered year range has at least one month. -/
theorem simulationMonths_ne_nil {sy ey : ℤ} (hle : sy ≤ ey) :
    simulationMonths sy ey ≠ [] := by
  apply List.ne_nil_of_length_pos
  rw [simulationMonths_length]
  omega

/-! ## Lemmas about the SingleFund month loop -/

/-- Every row emitted by the SingleFund month loop satisfies the per-row
accounting equations of the loop body. -/
theorem sfLoop_mem_spec {rets : List (Date × Option ℚ)} {ic : ℚ} {sy : ℤ} {dr infl : ℚ}
    {months : List Date} {c : ℚ} {row : Row}
    (h : row ∈ sfLoop rets ic sy dr infl months c) :
    row.monthlyReturn = retAt rets row.yearMonth ∧
    row.monthlyDraw = ic * dr * (1 + infl) ^ (row.yearMonth.year - sy).toNat / 12 ∧
    row.corpusAfterGrowth = row.startingCorpus * (1 + row.monthlyReturn) ∧
    row.endingCorpus = row.corpusAfterGrowth - row.monthlyDraw := by
  induction months generalizing c with
  | nil => simp [sfLoop] at h
  | cons d rest ih =>
      rw [sfLoop] at h
      rcases List.mem_cons.mp h with h | h
      · subst h; exact ⟨rfl, rfl, rfl, rfl⟩
      · exact ih h

/-- The head of a nonempty SingleFund month loop starts at the corpus the
loop was entered with. -/
theorem sfLoop_head_start {rets : List (Date × Option ℚ)} {ic : ℚ} {sy : ℤ} {dr infl : ℚ}
    {months : List Date} {c : ℚ} {row : Row}
    (h : (sfLoop rets ic sy dr infl months c).head? = some row) :
    row.startingCorpus = c := by
  cases months with
  | nil => simp [sfLoop] at h
  | cons d rest =>
      rw [sfLoop] at h
      simp only [List.head?_cons, Option.some.injEq] at h
      subst h; rfl

/-- The SingleFund month loop emits its rows with the yearMonth labels of
the months it was given, in order. -/
theorem sfLoop_map_yearMonth (rets : List (Date × Option ℚ)) (ic : ℚ) (sy : ℤ) (dr infl : ℚ) :
    ∀ (months : List Date) (c : ℚ),
      (sfLoop rets ic sy dr infl months c).map Row.yearMonth = months := by
  intro months
  induction months with
  | nil => intro c; rfl
  | cons d rest ih => intro c; rw [sfLoop]; simp only [List.map_cons]; rw [ih]

/-- Consecutive rows of the SingleFund month loop chain the corpus:
each row's ending corpus is the next row's starting corpus. -/
theorem sfLoop_chain (rets : List (Date × Option ℚ)) (ic : ℚ) (sy : ℤ) (dr infl : ℚ) :
    ∀ (months : List Date) (c : ℚ),
      List.Chain' (fun a b => a.endingCorpus = b.startingCorpus)
        (sfLoop rets ic sy dr infl months c) := by
  intro months
  induction months with
  | nil => intro c; simp [sfLoop]
  | cons d rest ih =>
      intro c
      rw [sfLoop]
      refine List.chain'_cons'.mpr ⟨?_, ih _⟩
      intro y hy
      rw [sfLoop_head_start hy]

/-! ## Decimal-representation lemmas and label injectivity -/

theorem digitChar_ne_colon : ∀ k : ℕ, k < 10 → Nat.digitChar k ≠ ':' := by decide

theorem digitChar_decode : ∀ k : ℕ, k < 10 → (Nat.digitChar k).toNat - 48 = k := by decide

theorem toDigitsCore_eq_sigDigits :
    ∀ (fuel n : ℕ) (ds : List Char), n < fuel →
      Nat.toDigitsCore 10 fuel n ds = sigDigits n ++ ds := by
  intro fuel
  induction fuel with
  | zero => intro n ds h; omega
  | succ fuel ih =>
      intro n ds h
      rw [Nat.toDigitsCore]
      by_cases h10 : n < 10
      · have hz : n / 10 = 0 := Nat.div_eq_of_lt h10
        simp only [hz, if_true]
        rw [sigDigits, dif_pos h10, Nat.mod_eq_of_lt h10]
        rfl
      · have hnz : ¬ n / 10 = 0 := by
          intro hcontra
          have := (Nat.div_eq_zero_iff (by omega : 0 < 10)).mp hcontra
          omega
        simp only [hnz, if_false]
        have hlt : n / 10 < fuel := by
          have h1 := Nat.div_lt_self (show 0 < n by omega) (show 1 < 10 by omega)
          omega
        rw [ih (n / 10) (Nat.digitChar (n % 10) :: ds) hlt]
        conv_rhs => rw [sigDigits, dif_neg h10]
        simp only [List.append_assoc, List.cons_append, List.nil_append]

theorem toDigits_eq_sigDigits (n : ℕ) : Nat.toDigits 10 n = sigDigits n := by
  rw [Nat.toDigits, toDigitsCore_eq_sigDigits (n + 1) n [] (by omega), List.append_nil]

theorem decDigits_append (xs ys : List Char) (acc : ℕ) :
    decDigits (xs ++ ys) acc = decDigits ys (decDigits xs acc) := by
  unfold decDigits
  rw [List.foldl_append]

theorem decDigits_sigDigits :
    ∀ (n : ℕ) (acc : ℕ), decDigits (sigDigits n) acc = acc * 10 ^ (sigDigits n).length + n := by
  intro n
  induction n using Nat.strong_induction_on with
  | _ n ih =>
      intro acc
      by_cases h10 : n < 10
      · rw [sigDigits, dif_pos h10]
        show decDigits [Nat.digitChar n] acc = acc * 10 ^ 1 + n
        unfold decDigits
        simp [List.foldl_cons, digitChar_decode n h10, pow_one]
      · rw [sigDigits, dif_neg h10]
        rw [decDigits_append]
        have hdiv : n / 10 < n := Nat.div_lt_self (by omega) (by omega)
        rw [ih (n / 10) hdiv acc]
        show (acc * 10 ^ (sigDigits (n / 10)).length + n / 10) * 10
              + ((Nat.digitChar (n % 10)).toNat - 48)
            = acc * 10 ^ (sigDigits (n / 10) ++ [Nat.digitChar (n % 10)]).length + n
        rw [digitChar_decode (n % 10) (Nat.mod_lt n (by omega))]
        rw [List.length_append, List.length_cons, List.length_nil]
        have hr : (acc * 10 ^ (sigDigits (n / 10)).length + n / 10) * 10 + n % 10
            = acc * 10 ^ ((sigDigits (n / 10)).length + 1) + (10 * (n / 10) + n % 10) := by ring
        rw [hr, Nat.div_add_mod]

theorem sigDigits_inj {m n : ℕ} (h : sigDigits m = sigDigits n) : m = n := by
  have hm := decDigits_sigDigits m 0
  have hn := decDigits_sigDigits n 0
  rw [h] at hm
  rw [hm] at hn
  omega

theorem repr_inj {m n : ℕ} (h : Nat.repr m = Nat.repr n) : m = n := by
  have hdata : (Nat.repr m).data = (Nat.repr n).data := by rw [h]
  rw [Nat.repr, Nat.repr] at hdata
  have h2 : Nat.toDigits 10 m = Nat.toDigits 10 n := hdata
  rw [toDigits_eq_sigDigits, toDigits_eq_sigDigits] at h2
  exact sigDigits_inj h2

theorem sigDigits_no_colon : ∀ (n : ℕ), ∀ c ∈ sigDigits n, c ≠ ':' := by
  intro n
  induction n using Nat.strong_induction_on with
  | _ n ih =>
      intro c hc
      by_cases h10 : n < 10
      · rw [sigDigits, dif_pos h10] at hc
        rw [List.mem_singleton] at hc
        subst hc
        exact digitChar_ne_colon n h10
      · rw [sigDigits, dif_neg h10] at hc
        rw [List.mem_append, List.mem_singleton] at hc
        rcases hc with hc | hc
        · exact ih (n / 10) (Nat.div_lt_self (by omega) (by omega)) c hc
        · subst hc
          exact digitChar_ne_colon (n % 10) (Nat.mod_lt n (by omega))

theorem append_colon_inj :
    ∀ (xs ys l l' : List Char),
      (∀ c ∈ xs, c ≠ ':') → (∀ c ∈ ys, c ≠ ':') →
      xs ++ ':' :: l = ys ++ ':' :: l' → xs = ys ∧ l = l' := by
  intro xs
  induction xs with
  | nil =>
      intro ys l l' _ hys h
      cases ys with
      | nil => simpa using h
      | cons c ys' =>
          simp only [List.nil_append, List.cons_append, List.cons.injEq] at h
          exact absurd h.1.symm (hys c (List.mem_cons_self c ys'))
  | cons c xs' ih =>
      intro ys l l' hxs hys h
      cases ys with
      | nil =>
          simp only [List.cons_append, List.nil_append, List.cons.injEq] at h
          exact absurd h.1 (hxs c (List.mem_cons_self c xs'))
      | cons c' ys' =>
          simp only [List.cons_append, List.cons.injEq] at h
          obtain ⟨h1, h2⟩ := h
          obtain ⟨h3, h4⟩ := ih ys' l l' (fun a ha => hxs a (List.mem_cons_of_mem c ha))
            (fun a ha => hys a (List.mem_cons_of_mem c' ha)) h2
          exact ⟨by rw [h1, h3], h4⟩

theorem scenarioName_inj {i j : ℕ} {t u : String}
    (h : scenarioName i t = scenarioName j u) : i = j ∧ t = u := by
  unfold scenarioName at h
  have hdata := congrArg String.data h
  simp only [String.data_append, List.append_assoc] at hdata
  have hd1 : (toString (i + 1) : String).data = sigDigits (i + 1) := by
    show (Nat.repr (i + 1)).data = _
    rw [Nat.repr, toDigits_eq_sigDigits]
    rfl
  have hd2 : (toString (j + 1) : String).data = sigDigits (j + 1) := by
    show (Nat.repr (j + 1)).data = _
    rw [Nat.repr, toDigits_eq_sigDigits]
    rfl
  rw [hd1, hd2] at hdata
  have hmid := List.append_cancel_left hdata
  obtain ⟨hs, htail⟩ := append_colon_inj (sigDigits (i + 1)) (sigDigits (j + 1))
    (' ' :: t.data) (' ' :: u.data) (sigDigits_no_colon (i + 1)) (sigDigits_no_colon (j + 1))
    hmid
  have hij : i + 1 = j + 1 := sigDigits_inj hs
  have htu : t = u := String.ext (by simpa using htail)
  exact ⟨by omega, htu⟩

/-- Every labelled output of the scenario loop comes from a scenario at some
position, labelled with that position and its (known) strategy type. -/
theorem run_go_labels (allFetchedFundData : String → List (Date × ℚ)) (ic : ℚ)
    (sy ey : ℤ) (dr infl : ℚ) :
    ∀ (scenarios : List EScenario) (i : ℕ) (p : String × List Row),
      p ∈ (run_strategy_simulations_go allFetchedFundData ic sy ey dr infl i scenarios).1 →
      ∃ (k : ℕ) (hk : k < scenarios.length),
        p.1 = scenarioName (i + k) (scenarios.get ⟨k, hk⟩).strategy_type ∧
        ((scenarios.get ⟨k, hk⟩).strategy_type = "Single Fund Strategy" ∨
         (scenarios.get ⟨k, hk⟩).strategy_type = "Rebalancing Strategy") := by
  intro scenarios
  induction scenarios with
  | nil => intro i p hp; simp [run_strategy_simulations_go] at hp
  | cons sc rest ih =>
      intro i p hp
      simp only [run_strategy_simulations_go] at hp
      by_cases h1 : sc.strategy_type = "Single Fund Strategy"
      · rw [if_pos h1] at hp
        rcases List.mem_cons.mp hp with hp | hp
        · refine ⟨0, by simp, ?_, Or.inl h1⟩
          rw [hp]
          show scenarioName i sc.strategy_type = scenarioName (i + 0) sc.strategy_type
          rw [Nat.add_zero]
        · obtain ⟨k, hk, hlab, hknown⟩ := ih (i + 1) p hp
          refine ⟨k + 1, by simpa using Nat.succ_lt_succ hk, ?_, hknown⟩
          rw [hlab]
          show scenarioName (i + 1 + k) _ = scenarioName (i + (k + 1)) _
          congr 1
          omega
      · rw [if_neg h1] at hp
        by_cases h2 : sc.strategy_type = "Rebalancing Strategy"
        · rw [if_pos h2] at hp
          rcases List.mem_cons.mp hp with hp | hp
          · refine ⟨0, by simp, ?_, Or.inr h2⟩
            rw [hp]
            show scenarioName i sc.strategy_type = scenarioName (i + 0) sc.strategy_type
            rw [Nat.add_zero]
          · obtain ⟨k, hk, hlab, hknown⟩ := ih (i + 1) p hp
            refine ⟨k + 1, by simpa using Nat.succ_lt_succ hk, ?_, hknown⟩
            rw [hlab]
            show scenarioName (i + 1 + k) _ = scenarioName (i + (k + 1)) _
            congr 1
            omega
        · rw [if_neg h2] at hp
          obtain ⟨k, hk, hlab, hknown⟩ := ih (i + 1) p hp
          refine ⟨k + 1, by simpa using Nat.succ_lt_succ hk, ?_, hknown⟩
          rw [hlab]
          show scenarioName (i + 1 + k) _ = scenarioName (i + (k + 1)) _
          congr 1
          omega

/-- The labels emitted by the scenario loop are pairwise distinct. -/
theorem run_go_nodup (allFetchedFundData : String → List (Date × ℚ)) (ic : ℚ)
    (sy ey : ℤ) (dr infl : ℚ) :
    ∀ (scenarios : List EScenario) (i : ℕ),
      (((run_strategy_simulations_go allFetchedFundData ic sy ey dr infl i
          scenarios).1).map Prod.fst).Nodup := by
  intro scenarios
  induction scenarios with
  | nil => intro i; simp [run_strategy_simulations_go]
  | cons sc rest ih =>
      intro i
      simp only [run_strategy_simulations_go]
      have hfresh : scenarioName i sc.strategy_type ∉
          ((run_strategy_simulations_go allFetchedFundData ic sy ey dr infl (i + 1)
            rest).1).map Prod.fst := by
        intro hcontra
        obtain ⟨p, hp, hlab⟩ := List.mem_map.mp hcontra
        obtain ⟨k, hk, hlab2, _⟩ := run_go_labels allFetchedFundData ic sy ey dr infl
          rest (i + 1) p hp
        rw [hlab2] at hlab
        have := (scenarioName_inj hlab).1
        omega
      by_cases h1 : sc.strategy_type = "Single Fund Strategy"
      · rw [if_pos h1]
        simp only [List.map_cons]
        exact List.nodup_cons.mpr ⟨hfresh, ih (i + 1)⟩
      · rw [if_neg h1]
        by_cases h2 : sc.strategy_type = "Rebalancing Strategy"
        · rw [if_pos h2]
          simp only [List.map_cons]
          exact List.nodup_cons.mpr ⟨hfresh, ih (i + 1)⟩
        · rw [if_neg h2]
          exact ih (i + 1)

/-- A scenario of known strategy type at any position is simulated and
appears in the output under its positional label. -/
theorem run_go_present (allFetchedFundData : String → List (Date × ℚ)) (ic : ℚ)
    (sy ey : ℤ) (dr infl : ℚ) :
    ∀ (scenarios : List EScenario) (i k : ℕ) (hk : k < scenarios.length),
      ((scenarios.get ⟨k, hk⟩).strategy_type = "Single Fund Strategy" →
        (scenarioName (i + k) (scenarios.get ⟨k, hk⟩).strategy_type,
          SingleFundStrategy.simulate (scenarios.get ⟨k, hk⟩).funds allFetchedFundData
            ic sy ey dr infl)
          ∈ (run_strategy_simulations_go allFetchedFundData ic sy ey dr infl i
              scenarios).1) ∧
      ((scenarios.get ⟨k, hk⟩).strategy_type = "Rebalancing Strategy" →
        (scenarioName (i + k) (scenarios.get ⟨k, hk⟩).strategy_type,
          RebalancingStrategy.simulate (scenarios.get ⟨k, hk⟩).funds allFetchedFundData
            ic sy ey dr infl)
          ∈ (run_strategy_simulations_go allFetchedFundData ic sy ey dr infl i
              scenarios).1) := by
  intro scenarios
  induction scenarios with
  | nil => intro i k hk; simp at hk
  | cons sc rest ih =>
      intro i k hk
      cases k with
      | zero =>
          constructor
          · intro h1
            have h1' : sc.strategy_type = "Single Fund Strategy" := h1
            simp only [run_strategy_simulations_go, if_pos h1', Nat.add_zero]
            exact List.mem_cons_self _ _
          · intro h2
            have h2' : sc.strategy_type = "Rebalancing Strategy" := h2
            have h1' : ¬ sc.strategy_type = "Single Fund Strategy" := by
              rw [h2']
              simp
            simp only [run_strategy_simulations_go, if_neg h1', if_pos h2', Nat.add_zero]
            exact List.mem_cons_self _ _
      | succ k =>
          have hk' : k < rest.length := by simpa using hk
          have hget : (sc :: rest).get ⟨k + 1, hk⟩ = rest.get ⟨k, hk'⟩ := rfl
          have hik : i + (k + 1) = (i + 1) + k := by omega
          constructor
          · intro h1
            rw [hget] at h1 ⊢
            rw [hik]
            have hmem := (ih (i + 1) k hk').1 h1
            simp only [run_strategy_simulations_go]
            by_cases hs1 : sc.strategy_type = "Single Fund Strategy"
            · rw [if_pos hs1]
              exact List.mem_cons_of_mem _ hmem
            · rw [if_neg hs1]
              by_cases hs2 : sc.strategy_type = "Rebalancing Strategy"
              · rw [if_pos hs2]
                exact List.mem_cons_of_mem _ hmem
              · rw [if_neg hs2]
                exact hmem
          · intro h2
            rw [hget] at h2 ⊢
            rw [hik]
            have hmem := (ih (i + 1) k hk').2 h2
            simp only [run_strategy_simulations_go]
            by_cases hs1 : sc.strategy_type = "Single Fund Strategy"
            · rw [if_pos hs1]
              exact List.mem_cons_of_mem _ hmem
            · rw [if_neg hs1]
              by_cases hs2 : sc.strategy_type = "Rebalancing Strategy"
              · rw [if_pos hs2]
                exact List.mem_cons_of_mem _ hmem
              · rw [if_neg hs2]
                exact hmem

/-- A scenario of unknown strategy type leaves its diagnostic in the
printed output. -/
theorem run_go_diag (allFetchedFundData : String → List (Date × ℚ)) (ic : ℚ)
    (sy ey : ℤ) (dr infl : ℚ) :
    ∀ (scenarios : List EScenario) (i k : ℕ) (hk : k < scenarios.length),
      (scenarios.get ⟨k, hk⟩).strategy_type ≠ "Single Fund Strategy" →
      (scenarios.get ⟨k, hk⟩).strategy_type ≠ "Rebalancing Strategy" →
      ("Error: Unknown strategy type '" ++ (scenarios.get ⟨k, hk⟩).strategy_type
          ++ "'. Skipping scenario.")
        ∈ (run_strategy_simulations_go allFetchedFundData ic sy ey dr infl i
            scenarios).2 := by
  intro scenarios
  induction scenarios with
  | nil => intro i k hk; simp at hk
  | cons sc rest ih =>
      intro i k hk h1 h2
      cases k with
      | zero =>
          have h1' : ¬ sc.strategy_type = "Single Fund Strategy" := h1
          have h2' : ¬ sc.strategy_type = "Rebalancing Strategy" := h2
          simp only [run_strategy_simulations_go, if_neg h1', if_neg h2']
          exact List.mem_cons_self _ _
      | succ k =>
          have hk' : k < rest.length := by simpa using hk
          have hget : (sc :: rest).get ⟨k + 1, hk⟩ = rest.get ⟨k, hk'⟩ := rfl
          rw [hget] at h1 h2 ⊢
          have hmem := ih (i + 1) k hk' h1 h2
          simp only [run_strategy_simulations_go]
          by_cases hs1 : sc.strategy_type = "Single Fund Strategy"
          · rw [if_pos hs1]
            exact hmem
          · rw [if_neg hs1]
            by_cases hs2 : sc.strategy_type = "Rebalancing Strategy"
            · rw [if_pos hs2]
              exact hmem
            · rw [if_neg hs2]
              exact List.mem_cons_of_mem _ hmem

/-! ## Claims -/

/-- C1: every row of a SingleFund simulation satisfies
`corpus_after_growth = starting_corpus * (1 + monthly_return)`,
`monthly_draw = initial_corpus * annual_draw_rate * (1 + inflation_rate) ^
(current_year - start_year) / 12` (re-based to the original initial corpus,
not the evolving corpus), and `ending_corpus = corpus_after_growth -
monthly_draw`; the draw is subtracted in every month, not only December. -/
theorem claim_C1 (funds : List EFund) (allFetchedFundData : String → List (Date × ℚ))
    (initialCorpus : ℚ) (startYear endYear : ℤ) (annualDrawRate inflationRate : ℚ)
    (row : Row)
    (hrow : row ∈ SingleFundStrategy.simulate funds allFetchedFundData initialCorpus
      startYear endYear annualDrawRate inflationRate) :
    row.corpusAfterGrowth = row.startingCorpus * (1 + row.monthlyReturn) ∧
    row.monthlyDraw = initialCorpus * annualDrawRate
        * (1 + inflationRate) ^ (row.yearMonth.year - startYear).toNat / 12 ∧
    row.endingCorpus = row.corpusAfterGrowth - row.monthlyDraw := by
  have h := sfLoop_mem_spec hrow
  exact ⟨h.2.2.1, h.2.1, h.2.2.2⟩

/-- Witness for C1 at a concrete one-fund simulation. -/
theorem claim_C1_witness :
    ((SingleFundStrategy.simulate [⟨"A", "T", 1⟩] (fun _ => []) 1200 2020 2020
        (1/10) 0).get ⟨0, by decide⟩).corpusAfterGrowth
      = ((SingleFundStrategy.simulate [⟨"A", "T", 1⟩] (fun _ => []) 1200 2020 2020
        (1/10) 0).get ⟨0, by decide⟩).startingCorpus
        * (1 + ((SingleFundStrategy.simulate [⟨"A", "T", 1⟩] (fun _ => []) 1200 2020 2020
        (1/10) 0).get ⟨0, by decide⟩).monthlyReturn) ∧
    ((SingleFundStrategy.simulate [⟨"A", "T", 1⟩] (fun _ => []) 1200 2020 2020
        (1/10) 0).get ⟨0, by decide⟩).monthlyDraw
      = 1200 * (1/10) * (1 + 0) ^ ((((SingleFundStrategy.simulate [⟨"A", "T", 1⟩]
          (fun _ => []) 1200 2020 2020 (1/10) 0).get
          ⟨0, by decide⟩).yearMonth.year - 2020).toNat) / 12 ∧
    ((SingleFundStrategy.simulate [⟨"A", "T", 1⟩] (fun _ => []) 1200 2020 2020
        (1/10) 0).get ⟨0, by decide⟩).endingCorpus
      = ((SingleFundStrategy.simulate [⟨"A", "T", 1⟩] (fun _ => []) 1200 2020 2020
        (1/10) 0).get ⟨0, by decide⟩).corpusAfterGrowth
        - ((SingleFundStrategy.simulate [⟨"A", "T", 1⟩] (fun _ => []) 1200 2020 2020
        (1/10) 0).get ⟨0, by decide⟩).monthlyDraw :=
  claim_C1 _ _ _ _ _ _ _ _ (List.get_mem _ _ _)

/-- C4: in both strategy variants, each row's ending corpus equals the next
row's starting corpus, for every consecutive pair of rows; no non-negativity
floor is applied — a concrete SingleFund run goes negative in its first
month and keeps falling without error. -/
theorem claim_C4 :
    (∀ (funds : List EFund) (allFetchedFundData : String → List (Date × ℚ))
        (initialCorpus : ℚ) (startYear endYear : ℤ) (annualDrawRate inflationRate : ℚ),
      List.Chain' (fun a b => a.endingCorpus = b.startingCorpus)
        (SingleFundStrategy.simulate funds allFetchedFundData initialCorpus
          startYear endYear annualDrawRate inflationRate)) ∧
    (∀ (funds : List EFund) (allFetchedFundData : String → List (Date × ℚ))
        (initialCorpus : ℚ) (startYear endYear : ℤ) (annualDrawRate inflationRate : ℚ),
      List.Chain' (fun a b => a.endingCorpus = b.startingCorpus)
        (RebalancingStrategy.simulate funds allFetchedFundData initialCorpus
          startYear endYear annualDrawRate inflationRate)) ∧
    (SingleFundStrategy.simulate [⟨"A", "T", 1⟩] (fun _ => []) 1 2020 2020 24 0).map
        Row.endingCorpus
      = [-1, -3, -5, -7, -9, -11, -13, -15, -17, -19, -21, -23] := by
  refine ⟨?_, ?_, ?_⟩
  · intro funds data ic sy ey dr infl
    exact sfLoop_chain _ _ _ _ _ _ _
  · intro funds data ic sy ey dr infl
    exact rebLoop_chain _ _ _ _ _ _ _
  · norm_num [SingleFundStrategy.simulate, sfLoop, simulationMonths, retAt, alookup,
      pctChange, List.range_succ]

/-- C5: both variants emit exactly one row per calendar month from January
of the start year through December of the end year, in chronological order
(`12 * (end_year - start_year + 1)` rows); a month missing from a fund's
price series contributes a monthly return of exactly `0.0` — the row is
neither skipped nor shifted. -/
theorem claim_C5 :
    (∀ (funds : List EFund) (allFetchedFundData : String → List (Date × ℚ))
        (initialCorpus : ℚ) (startYear endYear : ℤ) (annualDrawRate inflationRate : ℚ),
      (SingleFundStrategy.simulate funds allFetchedFundData initialCorpus
          startYear endYear annualDrawRate inflationRate).map Row.yearMonth
        = simulationMonths startYear endYear) ∧
    (∀ (funds : List EFund) (allFetchedFundData : String → List (Date × ℚ))
        (initialCorpus : ℚ) (startYear endYear : ℤ) (annualDrawRate inflationRate : ℚ),
      (RebalancingStrategy.simulate funds allFetchedFundData initialCorpus
          startYear endYear annualDrawRate inflationRate).map Row.yearMonth
        = simulationMonths startYear endYear) ∧
    (∀ startYear endYear : ℤ,
      (simulationMonths startYear endYear).length
        = 12 * (endYear - startYear + 1).toNat) ∧
    (∀ (startYear endYear : ℤ) (j : ℕ) (hj : j < (simulationMonths startYear endYear).length),
      (simulationMonths startYear endYear).get ⟨j, hj⟩
        = ⟨startYear + (j / 12 : ℕ), j % 12 + 1, 1⟩) ∧
    (∀ (s : List (Date × ℚ)) (d : Date),
      d ∉ s.map Prod.fst → retAt (pctChange s) d = 0) := by
  refine ⟨?_, ?_, simulationMonths_length, simulationMonths_get, ?_⟩
  · intro funds data ic sy ey dr infl
    exact sfLoop_map_yearMonth _ _ _ _ _ _ _
  · intro funds data ic sy ey dr infl
    exact rebLoop_map_yearMonth _ _ _ _ _ _ _
  · intro s d h
    exact retAt_of_not_mem h

/-- Witness for C5: the 14th simulated month of 2020–2021 is February 2021,
and a month absent from a one-entry series returns exactly zero. -/
theorem claim_C5_witness :
    (simulationMonths 2020 2021).get ⟨13, by decide⟩ = ⟨2021, 2, 1⟩ ∧
    retAt (pctChange [(⟨2020, 1, 1⟩, 10)]) ⟨2020, 5, 1⟩ = 0 :=
  ⟨claim_C5.2.2.2.1 2020 2021 13 (by decide),
   claim_C5.2.2.2.2 [(⟨2020, 1, 1⟩, 10)] ⟨2020, 5, 1⟩ (by decide)⟩

/-- C2: in a Rebalancing simulation a withdrawal occurs only in December
rows: every non-December row reports `monthly_draw = 0.0`; in a December
month the full inflation-adjusted annual draw is subtracted from the
post-growth total and the remainder is redistributed across the funds as
`remainder * weight` each — exactly their configured target-weight
proportions (so, when the weights sum to 1, the ending corpus is the
post-growth corpus minus the annual draw); in a non-December month no
rebalancing occurs and each fund's holding is only its prior holding grown
by its own monthly return. -/
theorem claim_C2 :
    (∀ (funds : List EFund) (allFetchedFundData : String → List (Date × ℚ))
        (initialCorpus : ℚ) (startYear endYear : ℤ) (annualDrawRate inflationRate : ℚ)
        (row : Row),
      row ∈ RebalancingStrategy.simulate funds allFetchedFundData initialCorpus
        startYear endYear annualDrawRate inflationRate →
      row.yearMonth.month ≠ 12 → row.monthlyDraw = 0) ∧
    (∀ (retsDict : List (String × List (Date × Option ℚ))) (funds : List EFund)
        (baseAnnualDraw inflationRate : ℚ) (startYear : ℤ) (d : Date)
        (holdings : List (String × ℚ)) (row : Row) (holdings' : List (String × ℚ)),
      rebOneMonth retsDict funds baseAnnualDraw inflationRate startYear d holdings
          = (row, holdings') →
      (funds.map EFund.name).Nodup →
      dictKeys holdings = funds.map EFund.name →
      (d.month = 12 →
        (∀ f ∈ funds, dgetD holdings' f.name 0
            = (row.corpusAfterGrowth
                - baseAnnualDraw * (1 + inflationRate) ^ (d.year - startYear).toNat)
              * f.weight) ∧
        ((funds.map EFund.weight).sum = 1 →
          row.endingCorpus
            = row.corpusAfterGrowth
              - baseAnnualDraw * (1 + inflationRate) ^ (d.year - startYear).toNat)) ∧
      (d.month ≠ 12 →
        row.monthlyDraw = 0 ∧
        (∀ f ∈ funds, dgetD holdings' f.name 0
            = dgetD holdings f.name 0 * (1 + retAt (dgetD retsDict f.name []) d)))) := by
  constructor
  · intro funds data ic sy ey dr infl row hmem hmonth
    obtain ⟨h0, hrow⟩ := rebLoop_mem hmem
    rw [hrow, rebOneMonth_draw, if_neg hmonth]
  · intro retsDict funds bad infl sy d h row h' heq hnd hkeys
    obtain ⟨_, _, _, _, hnodec, hdec⟩ :=
      rebOneMonth_spec retsDict funds bad infl sy d h row h' heq hnd hkeys
    constructor
    · intro hd
      obtain ⟨_, hfunds, hend⟩ := hdec hd
      refine ⟨hfunds, ?_⟩
      intro hsum
      rw [hend, hsum, mul_one]
    · intro hd
      obtain ⟨hdraw, hfunds, _⟩ := hnodec hd
      exact ⟨hdraw, hfunds⟩

/-- Witness for C2 at a concrete December step of a two-fund scenario. -/
theorem claim_C2_witness :
    dgetD (rebOneMonth [] [⟨"A", "TA", 1/2⟩, ⟨"B", "TB", 1/2⟩] 120 0 2020 ⟨2020, 12, 1⟩
        [("A", 600), ("B", 600)]).2 "A" 0
      = ((rebOneMonth [] [⟨"A", "TA", 1/2⟩, ⟨"B", "TB", 1/2⟩] 120 0 2020 ⟨2020, 12, 1⟩
          [("A", 600), ("B", 600)]).1.corpusAfterGrowth
          - 120 * (1 + 0) ^ ((2020 : ℤ) - 2020).toNat) * (1/2) ∧
    (rebOneMonth [] [⟨"A", "TA", 1/2⟩, ⟨"B", "TB", 1/2⟩] 120 0 2020 ⟨2020, 12, 1⟩
        [("A", 600), ("B", 600)]).1.endingCorpus
      = (rebOneMonth [] [⟨"A", "TA", 1/2⟩, ⟨"B", "TB", 1/2⟩] 120 0 2020 ⟨2020, 12, 1⟩
          [("A", 600), ("B", 600)]).1.corpusAfterGrowth
          - 120 * (1 + 0) ^ ((2020 : ℤ) - 2020).toNat := by
  have h := (claim_C2.2 [] [⟨"A", "TA", 1/2⟩, ⟨"B", "TB", 1/2⟩] 120 0 2020 ⟨2020, 12, 1⟩
    [("A", 600), ("B", 600)] _ _ rfl (by decide) (by decide)).1 rfl
  exact ⟨h.1 ⟨"A", "TA", 1/2⟩ (List.mem_cons_self _ _), h.2 (by norm_num)⟩

/-- C6: a Rebalancing row's reported portfolio monthly return is the sum
over funds of starting holding times that fund's return, divided by the
sum of starting holdings, except that a zero starting sum reports `0.0`
instead — the division is never performed on a zero denominator. -/
theorem claim_C6 (retsDict : List (String × List (Date × Option ℚ))) (funds : List EFund)
    (baseAnnualDraw inflationRate : ℚ) (startYear : ℤ) (d : Date)
    (holdings : List (String × ℚ)) (row : Row) (holdings' : List (String × ℚ))
    (heq : rebOneMonth retsDict funds baseAnnualDraw inflationRate startYear d holdings
      = (row, holdings'))
    (hnd : (funds.map EFund.name).Nodup)
    (hkeys : dictKeys holdings = funds.map EFund.name) :
    row.startingCorpus = (funds.map (fun f => dgetD holdings f.name 0)).sum ∧
    row.monthlyReturn
      = (if row.startingCorpus = 0 then 0
         else (funds.map (fun f =>
             dgetD holdings f.name 0 * retAt (dgetD retsDict f.name []) d)).sum
           / row.startingCorpus) := by
  obtain ⟨h1, _, h3, _, _, _⟩ :=
    rebOneMonth_spec retsDict funds baseAnnualDraw inflationRate startYear d holdings
      row holdings' heq hnd hkeys
  exact ⟨h1, h3⟩

/-- Witness for C6 at a concrete two-fund step. -/
theorem claim_C6_witness :
    (rebOneMonth [] [⟨"A", "TA", 1/2⟩, ⟨"B", "TB", 1/2⟩] 120 0 2020 ⟨2020, 1, 1⟩
        [("A", 600), ("B", 600)]).1.startingCorpus
      = (([⟨"A", "TA", 1/2⟩, ⟨"B", "TB", 1/2⟩] : List EFund).map
          (fun f => dgetD [("A", (600:ℚ)), ("B", 600)] f.name 0)).sum ∧
    (rebOneMonth [] [⟨"A", "TA", 1/2⟩, ⟨"B", "TB", 1/2⟩] 120 0 2020 ⟨2020, 1, 1⟩
        [("A", 600), ("B", 600)]).1.monthlyReturn
      = (if (rebOneMonth [] [⟨"A", "TA", 1/2⟩, ⟨"B", "TB", 1/2⟩] 120 0 2020 ⟨2020, 1, 1⟩
            [("A", 600), ("B", 600)]).1.startingCorpus = 0 then 0
         else (([⟨"A", "TA", 1/2⟩, ⟨"B", "TB", 1/2⟩] : List EFund).map
             (fun f => dgetD [("A", (600:ℚ)), ("B", 600)] f.name 0
               * retAt (dgetD [] f.name []) ⟨2020, 1, 1⟩)).sum
           / (rebOneMonth [] [⟨"A", "TA", 1/2⟩, ⟨"B", "TB", 1/2⟩] 120 0 2020 ⟨2020, 1, 1⟩
              [("A", 600), ("B", 600)]).1.startingCorpus) :=
  claim_C6 [] [⟨"A", "TA", 1/2⟩, ⟨"B", "TB", 1/2⟩] 120 0 2020 ⟨2020, 1, 1⟩
    [("A", 600), ("B", 600)] _ _ rfl (by decide) (by decide)

/-- In an association list keyed by pairwise-distinct fund names, each
fund's entry looks up to its own value. -/
theorem alookup_of_mem_nodup {α : Type} (v : EFund → α) :
    ∀ (funds : List EFund) (f : EFund), (funds.map EFund.name).Nodup → f ∈ funds →
      alookup (funds.map (fun g => (g.name, v g))) f.name = some (v f) := by
  intro funds
  induction funds with
  | nil => intro f _ hf; simp at hf
  | cons g fs ih =>
      intro f hnd hf
      have hnodup : g.name ∉ fs.map EFund.name ∧ (fs.map EFund.name).Nodup := by
        rw [List.map_cons, List.nodup_cons] at hnd
        exact hnd
      rw [List.map_cons, alookup_cons]
      rcases List.mem_cons.mp hf with hf | hf
      · subst hf
        rw [if_pos rfl]
      · have hne : ¬ g.name = f.name := by
          intro hcontra
          apply hnodup.1
          rw [hcontra]
          exact List.mem_map.mpr ⟨f, hf, rfl⟩
        rw [if_neg hne]
        exact ih f hnodup.2 hf

/-- C10: in a Rebalancing simulation each fund's initial holding is
`initial_corpus * weight`, so the first row's starting corpus is
`initial_corpus * (sum of weights)` — the initial corpus exactly when the
weights sum to 1; in a SingleFund simulation the first row's starting
corpus is the initial corpus exactly. -/
theorem claim_C10 :
    (∀ (funds : List EFund) (allFetchedFundData : String → List (Date × ℚ))
        (initialCorpus : ℚ) (startYear endYear : ℤ) (annualDrawRate inflationRate : ℚ),
      startYear ≤ endYear → (funds.map EFund.name).Nodup →
      (∀ f ∈ funds,
        dgetD (buildDict (funds.map (fun g => (g.name, initialCorpus * g.weight)))) f.name 0
          = initialCorpus * f.weight) ∧
      (RebalancingStrategy.simulate funds allFetchedFundData initialCorpus
          startYear endYear annualDrawRate inflationRate).head?.map Row.startingCorpus
        = some (initialCorpus * (funds.map EFund.weight).sum)) ∧
    (∀ (funds : List EFund) (allFetchedFundData : String → List (Date × ℚ))
        (initialCorpus : ℚ) (startYear endYear : ℤ) (annualDrawRate inflationRate : ℚ),
      startYear ≤ endYear →
      (SingleFundStrategy.simulate funds allFetchedFundData initialCorpus
          startYear endYear annualDrawRate inflationRate).head?.map Row.startingCorpus
        = some initialCorpus) := by
  constructor
  · intro funds data ic sy ey dr infl hle hnd
    have hl : (funds.map (fun g => (g.name, ic * g.weight))).map Prod.fst
        = funds.map EFund.name := by
      rw [List.map_map]
      rfl
    have hbd : buildDict (funds.map (fun g => (g.name, ic * g.weight)))
        = funds.map (fun g => (g.name, ic * g.weight)) :=
      buildDict_nodup _ (by rw [hl]; exact hnd)
    constructor
    · intro f hf
      unfold dgetD
      rw [hbd, alookup_of_mem_nodup (fun g => ic * g.weight) funds f hnd hf]
      rfl
    · obtain ⟨d, rest, hmon⟩ := List.exists_cons_of_ne_nil (simulationMonths_ne_nil hle)
      show (rebLoop (rebReturnsDict funds data) funds (ic * dr) infl sy
          (simulationMonths sy ey)
          (buildDict (funds.map (fun g => (g.name, ic * g.weight))))).head?.map
            Row.startingCorpus = _
      rw [hmon, rebLoop]
      show some (dictValuesSum (buildDict (funds.map (fun g => (g.name, ic * g.weight))))) = _
      rw [hbd]
      unfold dictValuesSum
      rw [List.map_map]
      show some ((funds.map (fun g => ic * g.weight)).sum) = _
      rw [List.sum_map_mul_left]
  · intro funds data ic sy ey dr infl hle
    obtain ⟨d, rest, hmon⟩ := List.exists_cons_of_ne_nil (simulationMonths_ne_nil hle)
    show (sfLoop (pctChange (data (funds.headD ⟨"", "", 0⟩).ticker)) ic sy dr infl
        (simulationMonths sy ey) ic).head?.map Row.startingCorpus = _
    rw [hmon, sfLoop]
    rfl

/-- Witness for C10 at a concrete two-fund Rebalancing scenario and a
concrete SingleFund scenario. -/
theorem claim_C10_witness :
    dgetD (buildDict (([⟨"A", "TA", 1/2⟩, ⟨"B", "TB", 1/2⟩] : List EFund).map
        (fun g => (g.name, 1200 * g.weight)))) "A" 0 = 1200 * (1/2) ∧
    (RebalancingStrategy.simulate [⟨"A", "TA", 1/2⟩, ⟨"B", "TB", 1/2⟩] (fun _ => [])
        1200 2020 2021 (1/10) 0).head?.map Row.startingCorpus
      = some (1200 * (([⟨"A", "TA", 1/2⟩, ⟨"B", "TB", 1/2⟩] : List EFund).map
          EFund.weight).sum) ∧
    (SingleFundStrategy.simulate [⟨"A", "T", 1⟩] (fun _ => []) 1200 2020 2021
        (1/10) 0).head?.map Row.startingCorpus = some 1200 := by
  have h := claim_C10.1 [⟨"A", "TA", 1/2⟩, ⟨"B", "TB", 1/2⟩] (fun _ => []) 1200 2020 2021
    (1/10) 0 (by decide) (by decide)
  exact ⟨h.1 ⟨"A", "TA", 1/2⟩ (List.mem_cons_self _ _), h.2,
    claim_C10.2 [⟨"A", "T", 1⟩] (fun _ => []) 1200 2020 2021 (1/10) 0 (by decide)⟩

/-- C3 as stated fails on the code: in the December row of a Rebalancing
simulation the full annual draw leaves the corpus while `monthly_draw`
reports only `annual_draw / 12`, so `ending_corpus ≠ corpus_after_growth -
monthly_draw` there (here: 1080 ≠ 1200 - 10). -/
theorem claim_C3_counterexample :
    ((RebalancingStrategy.simulate [⟨"A", "TA", 1/2⟩, ⟨"B", "TB", 1/2⟩] (fun _ => [])
        1200 2020 2020 (1/10) 0).getD 11 ⟨⟨0,0,0⟩,0,0,0,0,0⟩).corpusAfterGrowth = 1200 ∧
    ((RebalancingStrategy.simulate [⟨"A", "TA", 1/2⟩, ⟨"B", "TB", 1/2⟩] (fun _ => [])
        1200 2020 2020 (1/10) 0).getD 11 ⟨⟨0,0,0⟩,0,0,0,0,0⟩).monthlyDraw = 10 ∧
    ((RebalancingStrategy.simulate [⟨"A", "TA", 1/2⟩, ⟨"B", "TB", 1/2⟩] (fun _ => [])
        1200 2020 2020 (1/10) 0).getD 11 ⟨⟨0,0,0⟩,0,0,0,0,0⟩).endingCorpus = 1080 ∧
    ((RebalancingStrategy.simulate [⟨"A", "TA", 1/2⟩, ⟨"B", "TB", 1/2⟩] (fun _ => [])
          1200 2020 2020 (1/10) 0).getD 11 ⟨⟨0,0,0⟩,0,0,0,0,0⟩).endingCorpus
      ≠ ((RebalancingStrategy.simulate [⟨"A", "TA", 1/2⟩, ⟨"B", "TB", 1/2⟩] (fun _ => [])
          1200 2020 2020 (1/10) 0).getD 11 ⟨⟨0,0,0⟩,0,0,0,0,0⟩).corpusAfterGrowth
        - ((RebalancingStrategy.simulate [⟨"A", "TA", 1/2⟩, ⟨"B", "TB", 1/2⟩] (fun _ => [])
          1200 2020 2020 (1/10) 0).getD 11 ⟨⟨0,0,0⟩,0,0,0,0,0⟩).monthlyDraw := by
  have hretsD : rebReturnsDict [⟨"A", "TA", 1/2⟩, ⟨"B", "TB", 1/2⟩]
      (fun _ => ([] : List (Date × ℚ))) = [("A", []), ("B", [])] := by
    simp [rebReturnsDict, buildDict, dictSet, alookup, pctChange]
  have hh0 : buildDict (([⟨"A", "TA", 1/2⟩, ⟨"B", "TB", 1/2⟩] : List EFund).map
      (fun f => (f.name, (1200 : ℚ) * f.weight))) = [("A", 600), ("B", 600)] := by
    simp [buildDict, dictSet, alookup]
    norm_num
  have hstepk : ∀ k : ℕ, k ≠ 12 →
      rebOneMonth [("A", []), ("B", [])] [⟨"A", "TA", 1/2⟩, ⟨"B", "TB", 1/2⟩] 120 0 2020
        ⟨2020, k, 1⟩ [("A", 600), ("B", 600)]
      = (⟨⟨2020, k, 1⟩, 1200, 0, 0, 1200, 1200⟩, [("A", 600), ("B", 600)]) := by
    intro k hk
    simp [rebOneMonth, rebGrow, dictSet, dgetD, dictValuesSum, alookup, retAt, hk]
    norm_num
  have hstep12 :
      rebOneMonth [("A", []), ("B", [])] [⟨"A", "TA", 1/2⟩, ⟨"B", "TB", 1/2⟩] 120 0 2020
        ⟨2020, 12, 1⟩ [("A", 600), ("B", 600)]
      = (⟨⟨2020, 12, 1⟩, 1200, 0, 10, 1200, 1080⟩, [("A", 540), ("B", 540)]) := by
    simp [rebOneMonth, rebGrow, rebRedistribute, dictSet, dgetD, dictValuesSum,
      alookup, retAt]
    norm_num
  have hmon : simulationMonths 2020 2020 = [⟨2020,1,1⟩, ⟨2020,2,1⟩, ⟨2020,3,1⟩, ⟨2020,4,1⟩,
      ⟨2020,5,1⟩, ⟨2020,6,1⟩, ⟨2020,7,1⟩, ⟨2020,8,1⟩, ⟨2020,9,1⟩, ⟨2020,10,1⟩, ⟨2020,11,1⟩,
      ⟨2020,12,1⟩] := by decide
  have hbad : (1200 : ℚ) * (1/10) = 120 := by norm_num
  have hsim : RebalancingStrategy.simulate [⟨"A", "TA", 1/2⟩, ⟨"B", "TB", 1/2⟩] (fun _ => [])
      1200 2020 2020 (1/10) 0
      = [⟨⟨2020,1,1⟩, 1200, 0, 0, 1200, 1200⟩, ⟨⟨2020,2,1⟩, 1200, 0, 0, 1200, 1200⟩,
         ⟨⟨2020,3,1⟩, 1200, 0, 0, 1200, 1200⟩, ⟨⟨2020,4,1⟩, 1200, 0, 0, 1200, 1200⟩,
         ⟨⟨2020,5,1⟩, 1200, 0, 0, 1200, 1200⟩, ⟨⟨2020,6,1⟩, 1200, 0, 0, 1200, 1200⟩,
         ⟨⟨2020,7,1⟩, 1200, 0, 0, 1200, 1200⟩, ⟨⟨2020,8,1⟩, 1200, 0, 0, 1200, 1200⟩,
         ⟨⟨2020,9,1⟩, 1200, 0, 0, 1200, 1200⟩, ⟨⟨2020,10,1⟩, 1200, 0, 0, 1200, 1200⟩,
         ⟨⟨2020,11,1⟩, 1200, 0, 0, 1200, 1200⟩, ⟨⟨2020,12,1⟩, 1200, 0, 10, 1200, 1080⟩] := by
    show rebLoop (rebReturnsDict [⟨"A", "TA", 1/2⟩, ⟨"B", "TB", 1/2⟩] (fun _ => []))
        [⟨"A", "TA", 1/2⟩, ⟨"B", "TB", 1/2⟩] (1200 * (1/10)) 0 2020
        (simulationMonths 2020 2020)
        (buildDict (([⟨"A", "TA", 1/2⟩, ⟨"B", "TB", 1/2⟩] : List EFund).map
          (fun f => (f.name, (1200 : ℚ) * f.weight)))) = _
    rw [hretsD, hh0, hmon, hbad]
    rw [rebLoop, hstepk 1 (by decide)]
    rw [rebLoop, hstepk 2 (by decide)]
    rw [rebLoop, hstepk 3 (by decide)]
    rw [rebLoop, hstepk 4 (by decide)]
    rw [rebLoop, hstepk 5 (by decide)]
    rw [rebLoop, hstepk 6 (by decide)]
    rw [rebLoop, hstepk 7 (by decide)]
    rw [rebLoop, hstepk 8 (by decide)]
    rw [rebLoop, hstepk 9 (by decide)]
    rw [rebLoop, hstepk 10 (by decide)]
    rw [rebLoop, hstepk 11 (by decide)]
    rw [rebLoop, hstep12]
    rfl
  rw [hsim]
  norm_num

/-- C3 amended: `monthly_draw` equals the amount actually withdrawn — so
`ending_corpus = corpus_after_growth - monthly_draw` — in every SingleFund
row and in every non-December Rebalancing row (fund names pairwise
distinct); in a December Rebalancing row the full annual draw is withdrawn
while `monthly_draw` reports a twelfth of it, so there
`ending_corpus = corpus_after_growth - 12 * monthly_draw` (weights summing
to 1). -/
theorem claim_C3_amended :
    (∀ (funds : List EFund) (allFetchedFundData : String → List (Date × ℚ))
        (initialCorpus : ℚ) (startYear endYear : ℤ) (annualDrawRate inflationRate : ℚ)
        (row : Row),
      row ∈ SingleFundStrategy.simulate funds allFetchedFundData initialCorpus
        startYear endYear annualDrawRate inflationRate →
      row.endingCorpus = row.corpusAfterGrowth - row.monthlyDraw) ∧
    (∀ (funds : List EFund) (allFetchedFundData : String → List (Date × ℚ))
        (initialCorpus : ℚ) (startYear endYear : ℤ) (annualDrawRate inflationRate : ℚ)
        (row : Row),
      (funds.map EFund.name).Nodup →
      row ∈ RebalancingStrategy.simulate funds allFetchedFundData initialCorpus
        startYear endYear annualDrawRate inflationRate →
      row.yearMonth.month ≠ 12 →
      row.endingCorpus = row.corpusAfterGrowth - row.monthlyDraw) ∧
    (∀ (retsDict : List (String × List (Date × Option ℚ))) (funds : List EFund)
        (baseAnnualDraw inflationRate : ℚ) (startYear : ℤ) (d : Date)
        (holdings : List (String × ℚ)) (row : Row) (holdings' : List (String × ℚ)),
      rebOneMonth retsDict funds baseAnnualDraw inflationRate startYear d holdings
          = (row, holdings') →
      (funds.map EFund.name).Nodup →
      dictKeys holdings = funds.map EFund.name →
      d.month = 12 →
      (funds.map EFund.weight).sum = 1 →
      row.endingCorpus = row.corpusAfterGrowth - 12 * row.monthlyDraw) := by
  refine ⟨?_, ?_, ?_⟩
  · intro funds data ic sy ey dr infl row hmem
    exact (sfLoop_mem_spec hmem).2.2.2
  · intro funds data ic sy ey dr infl row hnd hmem hmonth
    have hl : (funds.map (fun g => (g.name, ic * g.weight))).map Prod.fst
        = funds.map EFund.name := by
      rw [List.map_map]
      rfl
    have hkeys0 : dictKeys (buildDict (funds.map (fun g => (g.name, ic * g.weight))))
        = funds.map EFund.name := by
      rw [buildDict_nodup _ (by rw [hl]; exact hnd)]
      exact hl
    obtain ⟨h0, h1, hkeys, heq⟩ := rebLoop_mem_inv hnd hkeys0 hmem
    obtain ⟨_, _, _, _, hnodec, _⟩ :=
      rebOneMonth_spec _ funds _ _ _ row.yearMonth h0 row h1 heq hnd hkeys
    obtain ⟨hdraw, _, hend⟩ := hnodec hmonth
    rw [hend, hdraw, sub_zero]
  · intro retsDict funds bad infl sy d h row h' heq hnd hkeys hdec hsum
    obtain ⟨_, _, _, _, _, hdecs⟩ :=
      rebOneMonth_spec retsDict funds bad infl sy d h row h' heq hnd hkeys
    obtain ⟨hdraw, _, hend⟩ := hdecs hdec
    rw [hend, hdraw, hsum]
    ring

/-- Witness for the amended C3: the first row of a concrete SingleFund run,
a concrete non-December Rebalancing step row, and a concrete December
step. -/
theorem claim_C3_amended_witness :
    (((SingleFundStrategy.simulate [⟨"A", "T", 1⟩] (fun _ => []) 1200 2020 2020
        (1/10) 0).get ⟨0, by decide⟩).endingCorpus
      = ((SingleFundStrategy.simulate [⟨"A", "T", 1⟩] (fun _ => []) 1200 2020 2020
        (1/10) 0).get ⟨0, by decide⟩).corpusAfterGrowth
        - ((SingleFundStrategy.simulate [⟨"A", "T", 1⟩] (fun _ => []) 1200 2020 2020
        (1/10) 0).get ⟨0, by decide⟩).monthlyDraw) ∧
    (((RebalancingStrategy.simulate [⟨"A", "TA", 1/2⟩, ⟨"B", "TB", 1/2⟩] (fun _ => [])
        1200 2020 2020 (1/10) 0).get ⟨0, by decide⟩).endingCorpus
      = ((RebalancingStrategy.simulate [⟨"A", "TA", 1/2⟩, ⟨"B", "TB", 1/2⟩] (fun _ => [])
        1200 2020 2020 (1/10) 0).get ⟨0, by decide⟩).corpusAfterGrowth
        - ((RebalancingStrategy.simulate [⟨"A", "TA", 1/2⟩, ⟨"B", "TB", 1/2⟩] (fun _ => [])
        1200 2020 2020 (1/10) 0).get ⟨0, by decide⟩).monthlyDraw) ∧
    ((rebOneMonth [] [⟨"A", "TA", 1/2⟩, ⟨"B", "TB", 1/2⟩] 120 0 2020 ⟨2020, 12, 1⟩
        [("A", 600), ("B", 600)]).1.endingCorpus
      = (rebOneMonth [] [⟨"A", "TA", 1/2⟩, ⟨"B", "TB", 1/2⟩] 120 0 2020 ⟨2020, 12, 1⟩
        [("A", 600), ("B", 600)]).1.corpusAfterGrowth
        - 12 * (rebOneMonth [] [⟨"A", "TA", 1/2⟩, ⟨"B", "TB", 1/2⟩] 120 0 2020 ⟨2020, 12, 1⟩
        [("A", 600), ("B", 600)]).1.monthlyDraw) := by
  refine ⟨?_, ?_, ?_⟩
  · exact claim_C3_amended.1 _ _ _ _ _ _ _ _ (List.get_mem _ _ _)
  · refine claim_C3_amended.2.1 _ _ _ _ _ _ _ _ (by decide) (List.get_mem _ _ _) ?_
    decide
  · exact claim_C3_amended.2.2 [] [⟨"A", "TA", 1/2⟩, ⟨"B", "TB", 1/2⟩] 120 0 2020
      ⟨2020, 12, 1⟩ [("A", 600), ("B", 600)] _ _ rfl (by decide) (by decide) rfl (by norm_num)

/-- C9: a scenario whose strategy type is not one of the two known variants
is skipped without aborting the batch — its positional label is absent from
the output mapping and a diagnostic is recorded — while every known-type
scenario is still simulated and appears under the label formed from its
1-based ordinal position and its strategy type; the labels are positionally
unique. -/
theorem claim_C9 :
    (∀ (scenarios : List EScenario) (allFetchedFundData : String → List (Date × ℚ))
        (initialCorpus : ℚ) (startYear endYear : ℤ) (annualDrawRate inflationRate : ℚ)
        (k : ℕ) (hk : k < scenarios.length),
      (scenarios.get ⟨k, hk⟩).strategy_type ≠ "Single Fund Strategy" →
      (scenarios.get ⟨k, hk⟩).strategy_type ≠ "Rebalancing Strategy" →
      scenarioName k (scenarios.get ⟨k, hk⟩).strategy_type
          ∉ ((run_strategy_simulations scenarios allFetchedFundData initialCorpus
            startYear endYear annualDrawRate inflationRate).1).map Prod.fst ∧
      ("Error: Unknown strategy type '" ++ (scenarios.get ⟨k, hk⟩).strategy_type
          ++ "'. Skipping scenario.")
        ∈ (run_strategy_simulations scenarios allFetchedFundData initialCorpus
            startYear endYear annualDrawRate inflationRate).2) ∧
    (∀ (scenarios : List EScenario) (allFetchedFundData : String → List (Date × ℚ))
        (initialCorpus : ℚ) (startYear endYear : ℤ) (annualDrawRate inflationRate : ℚ)
        (k : ℕ) (hk : k < scenarios.length),
      ((scenarios.get ⟨k, hk⟩).strategy_type = "Single Fund Strategy" →
        (scenarioName k (scenarios.get ⟨k, hk⟩).strategy_type,
          SingleFundStrategy.simulate (scenarios.get ⟨k, hk⟩).funds allFetchedFundData
            initialCorpus startYear endYear annualDrawRate inflationRate)
          ∈ (run_strategy_simulations scenarios allFetchedFundData initialCorpus
              startYear endYear annualDrawRate inflationRate).1) ∧
      ((scenarios.get ⟨k, hk⟩).strategy_type = "Rebalancing Strategy" →
        (scenarioName k (scenarios.get ⟨k, hk⟩).strategy_type,
          RebalancingStrategy.simulate (scenarios.get ⟨k, hk⟩).funds allFetchedFundData
            initialCorpus startYear endYear annualDrawRate inflationRate)
          ∈ (run_strategy_simulations scenarios allFetchedFundData initialCorpus
              startYear endYear annualDrawRate inflationRate).1)) ∧
    (∀ (scenarios : List EScenario) (allFetchedFundData : String → List (Date × ℚ))
        (initialCorpus : ℚ) (startYear endYear : ℤ) (annualDrawRate inflationRate : ℚ),
      (((run_strategy_simulations scenarios allFetchedFundData initialCorpus
          startYear endYear annualDrawRate inflationRate).1).map Prod.fst).Nodup) := by
  refine ⟨?_, ?_, ?_⟩
  · intro scenarios data ic sy ey dr infl k hk h1 h2
    constructor
    · intro hcontra
      obtain ⟨p, hp, hlab⟩ := List.mem_map.mp hcontra
      obtain ⟨m, hm, hlab2, hknown⟩ := run_go_labels data ic sy ey dr infl scenarios 0 p hp
      rw [hlab2] at hlab
      obtain ⟨hkm, hst⟩ := scenarioName_inj hlab
      have hkm' : m = k := by omega
      subst hkm'
      have hget : scenarios.get ⟨m, hm⟩ = scenarios.get ⟨m, hk⟩ := rfl
      rw [hget, hst] at hknown
      rcases hknown with hknown | hknown
      · exact h1 hknown
      · exact h2 hknown
    · exact run_go_diag data ic sy ey dr infl scenarios 0 k hk h1 h2
  · intro scenarios data ic sy ey dr infl k hk
    have h := run_go_present data ic sy ey dr infl scenarios 0 k hk
    rw [Nat.zero_add] at h
    exact h
  · intro scenarios data ic sy ey dr infl
    exact run_go_nodup data ic sy ey dr infl scenarios 0

/-- Witness for C9: a batch with one bogus-type scenario and one SingleFund
scenario — the bogus one is skipped with a diagnostic, the other is
simulated under its positional label. -/
theorem claim_C9_witness :
    scenarioName 0 "Bogus Strategy"
        ∉ ((run_strategy_simulations [⟨"Bogus Strategy", []⟩,
            ⟨"Single Fund Strategy", [⟨"A", "T", 1⟩]⟩] (fun _ => []) 1200 2020 2020
            (1/10) 0).1).map Prod.fst ∧
    ("Error: Unknown strategy type 'Bogus Strategy'. Skipping scenario.")
      ∈ (run_strategy_simulations [⟨"Bogus Strategy", []⟩,
          ⟨"Single Fund Strategy", [⟨"A", "T", 1⟩]⟩] (fun _ => []) 1200 2020 2020
          (1/10) 0).2 ∧
    (scenarioName 1 "Single Fund Strategy",
      SingleFundStrategy.simulate [⟨"A", "T", 1⟩] (fun _ => []) 1200 2020 2020 (1/10) 0)
      ∈ (run_strategy_simulations [⟨"Bogus Strategy", []⟩,
          ⟨"Single Fund Strategy", [⟨"A", "T", 1⟩]⟩] (fun _ => []) 1200 2020 2020
          (1/10) 0).1 := by
  have h1 := claim_C9.1 [⟨"Bogus Strategy", []⟩, ⟨"Single Fund Strategy", [⟨"A", "T", 1⟩]⟩]
    (fun _ => []) 1200 2020 2020 (1/10) 0 0 (by decide) (by decide) (by decide)
  have h2 := (claim_C9.2.1 [⟨"Bogus Strategy", []⟩,
    ⟨"Single Fund Strategy", [⟨"A", "T", 1⟩]⟩] (fun _ => []) 1200 2020 2020 (1/10) 0 1
    (by decide)).1 rfl
  exact ⟨h1.1, h1.2, h2⟩

/-- A fund with a missing or out-of-range weight always contributes a
weight error. -/
theorem collectWeights_err_of_bad :
    ∀ (i : ℕ) (funds : List ScFund) (f : ScFund), f ∈ funds →
      (f.weight = none ∨ ∃ w, f.weight = some w ∧ ¬ (0 < w ∧ w ≤ 1)) →
      (collectWeights i funds).1 ≠ [] := by
  intro i funds
  induction funds generalizing i with
  | nil => intro f hf; simp at hf
  | cons g fs ih =>
      intro f hf hbad
      rcases List.mem_cons.mp hf with hf | hf
      · subst hf
        rcases hbad with hb | ⟨w, hw, hwbad⟩
        · rw [collectWeights, hb]
          simp
        · rw [collectWeights, hw]
          simp only [if_neg hwbad]
          simp
      · rw [collectWeights]
        have hrest := ih (i + 1) f hf hbad
        match hg : g.weight with
        | none => simp
        | some w =>
            by_cases hw : 0 < w ∧ w ≤ 1
            · simp only [if_pos hw]
              exact hrest
            · simp only [if_neg hw]
              simp

/-- When every fund's weight is present and in range, the weight loop
collects exactly the weights, with no errors. -/
theorem collectWeights_all_valid :
    ∀ (i : ℕ) (funds : List ScFund),
      (∀ f ∈ funds, ∃ w, f.weight = some w ∧ 0 < w ∧ w ≤ 1) →
      (collectWeights i funds).1 = [] ∧
      (collectWeights i funds).2 = funds.filterMap ScFund.weight := by
  intro i funds
  induction funds generalizing i with
  | nil => intro _; exact ⟨rfl, rfl⟩
  | cons g fs ih =>
      intro hall
      obtain ⟨w, hw, hwok⟩ := hall g (List.mem_cons_self g fs)
      obtain ⟨ih1, ih2⟩ := ih (i + 1) (fun f hf => hall f (List.mem_cons_of_mem g hf))
      rw [collectWeights, hw]
      simp only [if_pos hwok]
      constructor
      · exact ih1
      · rw [List.filterMap_cons, hw]
        simp only [ih2]

/-- Any error of the Rebalancing-specific block of `validate_scenario`
appears among the scenario's aggregated errors. -/
theorem mem_validate_scenario_of_reb (scenario : Scenario)
    (fundToTicker : List (String × String)) (fetchedTickers : List String)
    (hst : scenario.strategy_type = some "Rebalancing Strategy") (e : VError)
    (he : e ∈ (if scenario.funds.length < 2
          then [VError.rebNotEnoughFunds scenario.funds.length] else [])
        ++ (collectWeights 0 scenario.funds).1
        ++ (if (collectWeights 0 scenario.funds).2 ≠ [] ∧
              |(collectWeights 0 scenario.funds).2.sum - 1| > 1 / 1000000
            then [VError.weightSumNotOne ((collectWeights 0 scenario.funds).2.sum)]
            else [])) :
    e ∈ validate_scenario scenario fundToTicker fetchedTickers := by
  unfold validate_scenario
  rw [if_pos hst]
  simp only [List.mem_append] at he ⊢
  exact Or.inl (Or.inr he)

/-- C7: `validate_scenario` rejects every Rebalancing scenario with fewer
than two funds, or any missing/out-of-range fund weight, or (weights all
valid) a weight sum off 1.0 by more than 1e-6 — never silently
renormalizing: two funds weighted [0.5, 0.6] fail with exactly the error
citing the sum 1.1 — and rejects every SingleFund scenario whose fund count
differs from 1; all of a scenario's violations are aggregated into the one
raised error, as the concrete scenario with two simultaneous violations
shows. -/
theorem claim_C7 :
    (∀ (scenario : Scenario) (fundToTicker : List (String × String))
        (fetchedTickers : List String),
      scenario.strategy_type = some "Rebalancing Strategy" →
      (scenario.funds.length < 2 ∨
       (∃ f ∈ scenario.funds,
          f.weight = none ∨ ∃ w, f.weight = some w ∧ ¬ (0 < w ∧ w ≤ 1)) ∨
       ((∀ f ∈ scenario.funds, ∃ w, f.weight = some w ∧ 0 < w ∧ w ≤ 1) ∧
        scenario.funds ≠ [] ∧
        |(scenario.funds.filterMap ScFund.weight).sum - 1| > 1 / 1000000)) →
      validate_scenario scenario fundToTicker fetchedTickers ≠ []) ∧
    (∀ (scenario : Scenario) (fundToTicker : List (String × String))
        (fetchedTickers : List String),
      scenario.strategy_type = some "Single Fund Strategy" →
      scenario.funds.length ≠ 1 →
      validate_scenario scenario fundToTicker fetchedTickers ≠ []) ∧
    (validate_scenario ⟨some "Rebalancing Strategy",
        [⟨some "F1", some (1/2)⟩, ⟨some "F2", some (3/5)⟩]⟩
        [("F1", "T1"), ("F2", "T2")] ["T1", "T2"]
      = [.weightSumNotOne (11/10)]) ∧
    (validate_scenario ⟨some "Rebalancing Strategy", [⟨some "F1", some 5⟩]⟩
        [("F1", "T1")] ["T1"]
      = [.rebNotEnoughFunds 1, .invalidWeight (Sum.inl "F1") 5]) := by
  refine ⟨?_, ?_, ?_, ?_⟩
  · intro scenario ftt fetched hst hdisj
    rcases hdisj with hlen | ⟨f, hf, hbad⟩ | ⟨hall, hne, hsum⟩
    · apply List.ne_nil_of_mem
      apply mem_validate_scenario_of_reb scenario ftt fetched hst
      simp only [List.mem_append]
      refine Or.inl (Or.inl ?_)
      rw [if_pos hlen]
      exact List.mem_cons_self _ _
    · have hne := collectWeights_err_of_bad 0 scenario.funds f hf hbad
      obtain ⟨e, hemem⟩ := List.exists_mem_of_ne_nil _ hne
      apply List.ne_nil_of_mem
      apply mem_validate_scenario_of_reb scenario ftt fetched hst e
      simp only [List.mem_append]
      exact Or.inl (Or.inr hemem)
    · obtain ⟨hcw1, hcw2⟩ := collectWeights_all_valid 0 scenario.funds hall
      apply List.ne_nil_of_mem
      apply mem_validate_scenario_of_reb scenario ftt fetched hst
      simp only [List.mem_append]
      refine Or.inr ?_
      have hcond : (collectWeights 0 scenario.funds).2 ≠ [] ∧
          |(collectWeights 0 scenario.funds).2.sum - 1| > 1 / 1000000 := by
        rw [hcw2]
        refine ⟨?_, hsum⟩
        obtain ⟨g, gs, hgs⟩ := List.exists_cons_of_ne_nil hne
        obtain ⟨w, hw, _⟩ := hall g (by rw [hgs]; exact List.mem_cons_self g gs)
        apply List.ne_nil_of_mem
        exact List.mem_filterMap.mpr ⟨g, by rw [hgs]; exact List.mem_cons_self g gs, hw⟩
      rw [if_pos hcond]
      exact List.mem_cons_self _ _
  · intro scenario ftt fetched hst hlen
    apply List.ne_nil_of_mem (a := VError.singleFundWrongCount scenario.funds.length)
    unfold validate_scenario
    simp only [List.mem_append]
    refine Or.inr ?_
    rw [if_pos ⟨hst, hlen⟩]
    exact List.mem_cons_self _ _
  · have he1 : "Rebalancing Strategy".isEmpty = false := rfl
    have he2 : "F1".isEmpty = false := rfl
    have he3 : "F2".isEmpty = false := rfl
    have habs : |(1:ℚ)/10| = 1/10 := abs_of_pos (by norm_num)
    simp [validate_scenario, validateFundNames, collectWeights, strFalsy, whoOf, alookup,
      he1, he2, he3]
    norm_num [habs]
    simp
  · have he1 : "Rebalancing Strategy".isEmpty = false := rfl
    have he2 : "F1".isEmpty = false := rfl
    simp [validate_scenario, validateFundNames, collectWeights, strFalsy, whoOf, alookup,
      he1, he2]

/-- Witness for C7: a one-fund Rebalancing scenario and a two-fund
SingleFund scenario are both rejected. -/
theorem claim_C7_witness :
    validate_scenario ⟨some "Rebalancing Strategy", [⟨some "F1", some 1⟩]⟩
        [("F1", "T1")] ["T1"] ≠ [] ∧
    validate_scenario ⟨some "Single Fund Strategy",
        [⟨some "F1", some 1⟩, ⟨some "F2", some 1⟩]⟩
        [("F1", "T1"), ("F2", "T2")] ["T1", "T2"] ≠ [] :=
  ⟨claim_C7.1 ⟨some "Rebalancing Strategy", [⟨some "F1", some 1⟩]⟩ [("F1", "T1")] ["T1"]
      rfl (Or.inl (by decide)),
   claim_C7.2.1 ⟨some "Single Fund Strategy", [⟨some "F1", some 1⟩, ⟨some "F2", some 1⟩]⟩
      [("F1", "T1"), ("F2", "T2")] ["T1", "T2"] rfl (by decide)⟩

/-- The `validated_funds` loop checks each fresh name once: as long as no
check fails, the checked names are pairwise distinct and are exactly the
referenced names not already seen. -/
theorem dateRangeLoop_go_spec (fundToTicker : List (String × String))
    (allFetchedFundData : String → List (Date × ℚ)) (startYear endYear : ℤ) :
    ∀ (names seen : List String),
      (dateRangeLoop fundToTicker allFetchedFundData startYear endYear names seen).2
          = none →
      (dateRangeLoop fundToTicker allFetchedFundData startYear endYear names seen).1.Nodup ∧
      (∀ n, n ∈ (dateRangeLoop fundToTicker allFetchedFundData startYear endYear
          names seen).1 ↔ (n ∈ names ∧ n ∉ seen)) := by
  intro names
  induction names with
  | nil => intro seen _; exact ⟨List.nodup_nil, by simp [dateRangeLoop]⟩
  | cons m ms ih =>
      intro seen hnone
      by_cases hm : m ∈ seen
      · simp only [dateRangeLoop, if_pos hm] at hnone ⊢
        obtain ⟨ihn, ihm⟩ := ih seen hnone
        refine ⟨ihn, ?_⟩
        intro n
        rw [ihm n]
        constructor
        · rintro ⟨hn1, hn2⟩
          exact ⟨List.mem_cons_of_mem m hn1, hn2⟩
        · rintro ⟨hn1, hn2⟩
          rcases List.mem_cons.mp hn1 with h | h
          · subst h
            exact absurd hm hn2
          · exact ⟨h, hn2⟩
      · by_cases herr : (validate_single_fund_date_range
            (allFetchedFundData ((alookup fundToTicker m).getD "")) startYear endYear
            m).isEmpty
        · simp only [dateRangeLoop, if_neg hm, if_pos herr] at hnone ⊢
          obtain ⟨ihn, ihm⟩ := ih (seen ++ [m]) hnone
          constructor
          · refine List.nodup_cons.mpr ⟨?_, ihn⟩
            intro hcontra
            have := (ihm m).mp hcontra
            exact this.2 (by simp)
          · intro n
            rw [List.mem_cons, ihm n]
            constructor
            · rintro (h | ⟨hn1, hn2⟩)
              · subst h
                exact ⟨List.mem_cons_self n ms, hm⟩
              · rw [List.mem_append] at hn2
                exact ⟨List.mem_cons_of_mem m hn1, fun hc => hn2 (Or.inl hc)⟩
            · rintro ⟨hn1, hn2⟩
              by_cases hnm : n = m
              · exact Or.inl hnm
              · refine Or.inr ⟨?_, ?_⟩
                · rcases List.mem_cons.mp hn1 with h | h
                  · exact absurd h hnm
                  · exact h
                · rw [List.mem_append]
                  rintro (hc | hc)
                  · exact hn2 hc
                  · exact hnm (by simpa using hc)
        · simp only [dateRangeLoop, if_neg hm, if_neg herr] at hnone
          exact absurd hnone (by simp)

/-- C8: the date-coverage check fails exactly when the series is empty, its
earliest timestamp lies after January 1 of the requested start year, or its
latest timestamp lies before January 1 of the requested end year; the
`run_all_validations` date phase runs this check once per distinct fund
name referenced across all scenarios; and any validation failure makes
`run_simulation` raise before any simulation runs. -/
theorem claim_C8 :
    (∀ (fundData : List (Date × ℚ)) (startYear endYear : ℤ) (fundName : String),
      validate_single_fund_date_range fundData startYear endYear fundName ≠ [] ↔
        (fundData = [] ∨ Date.ltb (jan1 startYear) (indexMin fundData) = true ∨
         Date.ltb (indexMax fundData) (jan1 endYear) = true)) ∧
    (∀ (scenarios : List Scenario) (fundToTicker : List (String × String))
        (allFetchedFundData : String → List (Date × ℚ)) (startYear endYear : ℤ),
      (dateRangeLoop fundToTicker allFetchedFundData startYear endYear
          (scenarioFundNames scenarios) []).2 = none →
      (dateRangeLoop fundToTicker allFetchedFundData startYear endYear
          (scenarioFundNames scenarios) []).1.Nodup ∧
      (∀ n, n ∈ (dateRangeLoop fundToTicker allFetchedFundData startYear endYear
          (scenarioFundNames scenarios) []).1 ↔ n ∈ scenarioFundNames scenarios)) ∧
    (∀ (scenarios : List Scenario) (fundToTicker : List (String × String))
        (fetchedTickers : List String) (allFetchedFundData : String → List (Date × ℚ))
        (initialCorpus : ℚ) (startYear endYear : ℤ) (annualDrawRate inflationRate : ℚ)
        (e : RunError),
      run_all_validations scenarios fundToTicker fetchedTickers allFetchedFundData
          startYear endYear annualDrawRate inflationRate = some e →
      run_simulation scenarios fundToTicker fetchedTickers allFetchedFundData
          initialCorpus startYear endYear annualDrawRate inflationRate
        = Except.error e) := by
  refine ⟨?_, ?_, ?_⟩
  · intro fundData sy ey name
    by_cases hs : fundData.isEmpty
    · rw [validate_single_fund_date_range, if_pos hs]
      simp [List.isEmpty_iff.mp hs]
    · rw [validate_single_fund_date_range, if_neg hs]
      have hne : ¬ fundData = [] := by
        intro hcontra
        rw [hcontra] at hs
        exact hs rfl
      by_cases h1 : Date.ltb (jan1 sy) (indexMin fundData) = true
      · simp [h1, hne]
      · by_cases h2 : Date.ltb (indexMax fundData) (jan1 ey) = true
        · simp [h1, h2, hne]
        · simp [h1, h2, hne]
  · intro scenarios ftt data sy ey hnone
    obtain ⟨hn, hm⟩ := dateRangeLoop_go_spec ftt data sy ey (scenarioFundNames scenarios)
      [] hnone
    refine ⟨hn, ?_⟩
    intro n
    rw [hm n]
    simp
  · intro scenarios ftt fetched data ic sy ey dr infl e h
    rw [run_simulation, h]

/-- Witness for C8: a two-scenario batch referencing fund F1 twice checks
F1 only once; and a parameter-validation failure turns `run_simulation`
into an error carrying it. -/
theorem claim_C8_witness :
    (dateRangeLoop [("F1", "T1"), ("F2", "T2")]
        (fun _ => [(⟨2019, 1, 1⟩, 10), (⟨2022, 1, 1⟩, 11)]) 2020 2021
        (scenarioFundNames [⟨some "Single Fund Strategy", [⟨some "F1", some 1⟩]⟩,
          ⟨some "Rebalancing Strategy",
            [⟨some "F1", some (1/2)⟩, ⟨some "F2", some (1/2)⟩]⟩]) []).1.Nodup ∧
    ("F1" ∈ (dateRangeLoop [("F1", "T1"), ("F2", "T2")]
        (fun _ => [(⟨2019, 1, 1⟩, 10), (⟨2022, 1, 1⟩, 11)]) 2020 2021
        (scenarioFundNames [⟨some "Single Fund Strategy", [⟨some "F1", some 1⟩]⟩,
          ⟨some "Rebalancing Strategy",
            [⟨some "F1", some (1/2)⟩, ⟨some "F2", some (1/2)⟩]⟩]) []).1 ↔
      "F1" ∈ scenarioFundNames [⟨some "Single Fund Strategy", [⟨some "F1", some 1⟩]⟩,
        ⟨some "Rebalancing Strategy",
          [⟨some "F1", some (1/2)⟩, ⟨some "F2", some (1/2)⟩]⟩]) ∧
    run_simulation [] [] [] (fun _ => []) 1200 2021 2020 0 0
      = Except.error (RunError.params [PError.startAfterEnd]) := by
  have h := claim_C8.2.1 [⟨some "Single Fund Strategy", [⟨some "F1", some 1⟩]⟩,
    ⟨some "Rebalancing Strategy", [⟨some "F1", some (1/2)⟩, ⟨some "F2", some (1/2)⟩]⟩]
    [("F1", "T1"), ("F2", "T2")] (fun _ => [(⟨2019, 1, 1⟩, 10), (⟨2022, 1, 1⟩, 11)])
    2020 2021 (by rfl)
  refine ⟨h.1, h.2 "F1", claim_C8.2.2 [] [] [] (fun _ => []) 1200 2021 2020 0 0 _ ?_⟩
  have hp : validate_simulation_parameters 2021 2020 0 0 = [PError.startAfterEnd] := by
    norm_num [validate_simulation_parameters]
  rw [run_all_validations, hp]
  rfl
